import Mathlib

/-!
Verification development for the `deep_sort` multi-object tracker
(`deep_sort/tracker.py`).  The tracker orchestration code
(`Tracker.update`, `Tracker._match`, `has_same_subfeat`,
`Tracker._initiate_track`) is embedded directly from the source file.
The collaborating modules of the repository that are not part of the
provided sources (`linear_assignment`, `iou_matching`, `track`,
`nn_matching`, `kalman_filter`, `detection`) are modelled from the
specification, as indicated in the doc comment of each such definition.
Machine floats are modelled as rationals; Euclidean-norm comparisons are
encoded as equivalent squared-norm comparisons to keep all arithmetic
rational and executable.
-/

/-- A feature vector (appearance embedding), modelled as a rational vector. -/
abbrev Feature := List ℚ

/-- Bounding box in top-left / bottom-right coordinates. -/
structure Box where
  x1 : ℚ
  y1 : ℚ
  x2 : ℚ
  y2 : ℚ
deriving DecidableEq, Repr, Inhabited

/-- Center-x / center-y / aspect / height representation of a box. -/
abbrev Xyah := ℚ × ℚ × ℚ × ℚ

/-- Opaque motion-estimator state owned by a track: (mean, covariance),
each modelled as a flat rational vector. -/
abbrev MotionState := List ℚ × List ℚ

/-- Squared Euclidean distance between two feature vectors
(`numpy.linalg.norm(a - b) ** 2`, componentwise on the common prefix). -/
def sqDist (a b : List ℚ) : ℚ :=
  ((a.zip b).map (fun p => (p.1 - p.2) ^ 2)).sum

/-- Area of a `tlbr` box. -/
def Box.area (b : Box) : ℚ := (b.x2 - b.x1) * (b.y2 - b.y1)

/-- Modelled from the spec: the external geometric-overlap computation
(`cython_bbox.bbox_overlaps` / the Geometric Cost collaborator).  Entry
contract (§6): ratio of intersection area to union area, and the IoU of
degenerate (zero-area) boxes is 0. -/
def iou (a b : Box) : ℚ :=
  let iw := min a.x2 b.x2 - max a.x1 b.x1
  let ih := min a.y2 b.y2 - max a.y1 b.y1
  if 0 < iw ∧ 0 < ih then
    let inter := iw * ih
    let uni := a.area + b.area - inter
    if 0 < uni then inter / uni else 0
  else 0

/-- Modelled from the spec: a per-frame detection (`detection.py` is not
among the provided sources).  §3: a bounding box (in `tlbr` and `xyah`
representations), a confidence score, a primary appearance feature
vector, and an optional secondary ("sub-region") feature vector with its
own bounding box. -/
structure Detection where
  tlbr : Box
  confidence : ℚ
  feature : Feature
  sub_feature : Option Feature
  sub_tlbr : Box
deriving DecidableEq, Repr, Inhabited

/-- Modelled from the spec: the detection's center-x/center-y/aspect/height
representation, derived from its `tlbr` box. -/
def Detection.to_xyah (d : Detection) : Xyah :=
  let w := d.tlbr.x2 - d.tlbr.x1
  let h := d.tlbr.y2 - d.tlbr.y1
  ((d.tlbr.x1 + d.tlbr.x2) / 2, (d.tlbr.y1 + d.tlbr.y2) / 2, w / h, h)

/-- Modelled from the spec: the external Motion Filter contract (§6)
(`kalman_filter.py` is not among the provided sources).  `initiate`
produces a fresh motion state from an `xyah` measurement, `predictStep`
advances a state one time step, `updateStep` corrects a state with a
measurement, and `gating_distance` is the squared Mahalanobis distance
used for gating. -/
structure KalmanFilter where
  initiate : Xyah → MotionState
  predictStep : MotionState → MotionState
  updateStep : MotionState → Xyah → MotionState
  gating_distance : MotionState → Xyah → ℚ

instance : Inhabited KalmanFilter :=
  ⟨⟨fun _ => ([], []), id, fun s _ => s, fun _ _ => 0⟩⟩

/-- Track lifecycle states (§4.1). -/
inductive TrackState where
  | Tentative
  | Confirmed
  | Deleted
deriving DecidableEq, Repr, Inhabited

/-- Modelled from the spec: one tracked identity (`track.py` is not among
the provided sources).  §3: identity, lifecycle state, opaque motion
state, counters `hits` / `age` / `time_since_update`, the primary and
(optional) secondary feature histories, and — used by the duplicate
guard in `tracker.py` — the last-associated detection. -/
structure Track where
  detection : Option Detection
  motion : MotionState
  track_id : ℕ
  hits : ℕ
  age : ℕ
  time_since_update : ℕ
  state : TrackState
  features : List Feature
  sub_features : List (Option Feature)
  n_init : ℕ
  max_age : ℕ
deriving DecidableEq, Repr, Inhabited

def Track.is_tentative (t : Track) : Bool := t.state = TrackState.Tentative

def Track.is_confirmed (t : Track) : Bool := t.state = TrackState.Confirmed

def Track.is_deleted (t : Track) : Bool := t.state = TrackState.Deleted

/-- Modelled from the spec (§4.1, §6): `Track.predict` advances the motion
state one step and increments `age` once per frame. -/
def Track.predict (t : Track) (kf : KalmanFilter) : Track :=
  { t with motion := kf.predictStep t.motion, age := t.age + 1 }

/-- Modelled from the spec (§4.1, §4.3): the successful-match transition.
The motion state is corrected with the matched detection's geometry,
`hits` is incremented, `time_since_update` resets to 0, a `Tentative`
track reaching `n_init` hits becomes `Confirmed`, and — only if the
resulting state is `Confirmed` — the detection's primary and secondary
features are appended to the feature histories.  The matched detection
is recorded as the track's last-associated detection. -/
def Track.update (t : Track) (kf : KalmanFilter) (d : Detection) : Track :=
  let newHits := t.hits + 1
  let newState :=
    if t.state = TrackState.Tentative ∧ t.n_init ≤ newHits then TrackState.Confirmed
    else t.state
  { t with
    motion := kf.updateStep t.motion d.to_xyah
    detection := some d
    hits := newHits
    time_since_update := 0
    state := newState
    features :=
      if newState = TrackState.Confirmed then t.features ++ [d.feature] else t.features
    sub_features :=
      if newState = TrackState.Confirmed then t.sub_features ++ [d.sub_feature]
      else t.sub_features }

/-- Modelled from the spec (§4.1): the miss transition.  A `Tentative`
track is deleted outright; a `Confirmed` track increments
`time_since_update` and is deleted once it strictly exceeds `max_age`. -/
def Track.mark_missed (t : Track) : Track :=
  match t.state with
  | TrackState.Tentative => { t with state := TrackState.Deleted }
  | TrackState.Confirmed =>
    let tsu := t.time_since_update + 1
    { t with
      time_since_update := tsu
      state := if t.max_age < tsu then TrackState.Deleted else TrackState.Confirmed }
  | TrackState.Deleted => t

/-- Modelled from the spec: the track's predicted `tlbr` box, read from the
first four motion-mean components (center-x, center-y, aspect, height). -/
def Track.to_tlbr (t : Track) : Box :=
  let cx := t.motion.1.getD 0 0
  let cy := t.motion.1.getD 1 0
  let a := t.motion.1.getD 2 0
  let h := t.motion.1.getD 3 0
  let w := a * h
  ⟨cx - w / 2, cy - h / 2, cx + w / 2, cy + h / 2⟩

/-- The infeasible-cost constant of the assignment routines
(`linear_assignment.INFTY_COST = 1e5`). -/
def INFTY_COST : ℚ := 100000

/-- The motion-gating threshold (`kalman_filter.chi2inv95[4] = 9.4877`),
used by the gated appearance metric. -/
def GATING_THRESHOLD : ℚ := 94877 / 10000

/-- Modelled from the spec: the per-identity appearance gallery of the
Appearance Metric collaborator (`nn_matching.NearestNeighborDistanceMetric`,
not among the provided sources).  §3/§6: a mapping from identity to a
bounded ordered collection of recent appearance vectors (oldest evicted
first beyond the budget), a feasibility threshold, nearest-neighbor
distance queries, `partial_fit` and `has_samples`. -/
structure NNDistanceMetric where
  matching_threshold : ℚ
  budget : Option ℕ
  samples : List (ℕ × List Feature)
deriving DecidableEq, Repr, Inhabited

/-- Keep only the last `budget` gallery entries (oldest evicted first). -/
def trimBudget (budget : Option ℕ) (l : List Feature) : List Feature :=
  match budget with
  | none => l
  | some b => l.drop (l.length - b)

/-- Append one observation to the gallery of identity `t`, creating the
gallery if absent and trimming to the budget. -/
def insertSample (budget : Option ℕ) :
    List (ℕ × List Feature) → ℕ → Feature → List (ℕ × List Feature)
  | [], t, f => [(t, trimBudget budget [f])]
  | (k, l) :: rest, t, f =>
    if k = t then (k, trimBudget budget (l ++ [f])) :: rest
    else (k, l) :: insertSample budget rest t f

/-- Modelled from the spec (§4.6, §6): `partial_fit(vectors, labels,
activeIdentities)` appends each labelled observation to its identity's
gallery (budgeted) and then prunes every gallery whose identity is not
in the active set. -/
def NNDistanceMetric.partial_fit (m : NNDistanceMetric) (features : List Feature)
    (targets : List ℕ) (active : List ℕ) : NNDistanceMetric :=
  let samples1 := (features.zip targets).foldl
    (fun s p => insertSample m.budget s p.2 p.1) m.samples
  { m with samples := samples1.filter (fun p => p.1 ∈ active) }

/-- The gallery currently stored for an identity (empty if absent). -/
def NNDistanceMetric.galleryOf (m : NNDistanceMetric) (id : ℕ) : List Feature :=
  (m.samples.lookup id).getD []

/-- Modelled from the spec (§6): `hasSamples(identity)`. -/
def NNDistanceMetric.has_samples (m : NNDistanceMetric) (id : ℕ) : Bool :=
  !(m.galleryOf id).isEmpty

/-- Nearest-neighbor (minimum) squared distance from a query feature to a
gallery; infeasible when the gallery is empty (the spec restricts
queries to identities with samples, §3). -/
def nnDist (gallery : List Feature) (f : Feature) : ℚ :=
  match gallery with
  | [] => INFTY_COST
  | g :: gs => gs.foldl (fun b x => min b (sqDist x f)) (sqDist g f)

/-- Modelled from the spec (§6): `distance` — nearest-neighbor distance of
a query feature against one identity's current gallery. -/
def NNDistanceMetric.nnDistanceTo (m : NNDistanceMetric) (id : ℕ) (f : Feature) : ℚ :=
  nnDist (m.galleryOf id) f

/-- `has_same_subfeat` (tracker.py lines 12–33): the duplicate-initiation
guard.  A detection with no secondary feature is never flagged.
Otherwise the tracks are restricted to those whose last-associated
detection exists and carries a secondary feature, and the detection is
flagged iff some such track has secondary-region IoU above `iou_thresh`
and secondary-feature distance below `feat_thresh`.  The source compares
the Euclidean norm with `feat_thresh`; here the squared norm is compared
with `feat_thresh ^ 2`, which is equivalent for the nonnegative
threshold used at the only call site (`0.9`). -/
def has_same_subfeat (det : Detection) (tracks : List Track)
    (feat_thresh iou_thresh : ℚ) : Bool :=
  match det.sub_feature with
  | none => false
  | some g =>
    let tracks2 := tracks.filter
      (fun tr => tr.detection.isSome ∧ ((tr.detection.getD default).sub_feature).isSome)
    tracks2.any (fun tr =>
      let td := tr.detection.getD default
      let f := td.sub_feature.getD []
      iou_thresh < iou det.sub_tlbr td.sub_tlbr ∧ sqDist g f < feat_thresh ^ 2)

/-- Least-cost choice among `x :: xs` under cost function `f` (first
minimizer wins, scanning left to right). -/
def argminBy (f : ℕ → ℚ) (x : ℕ) (xs : List ℕ) : ℕ :=
  xs.foldl (fun b y => if f y < f b then y else b) x

/-- The feasible (cost within cutoff) available column of least cost, if
any. -/
def pickBest (f : ℕ → ℚ) (maxCost : ℚ) (avail : List ℕ) : Option ℕ :=
  match avail.filter (fun j => f j ≤ maxCost) with
  | [] => none
  | j :: js => some (argminBy f j js)

/-- Modelled from the spec: the Assignment Solver collaborator
(`linear_assignment.min_cost_matching`, not among the provided sources).
§6 contract: given a pointwise cost, a per-entry feasibility cutoff
`maxCost` and index lists, return matched pairs together with the
complementary unmatched index lists, every returned pair's cost within
the cutoff, and the three sets partitioning the inputs (§3 Match
Result).  Realized here as a row-by-row least-cost matcher; global
total-cost minimality of the external solver is not modelled (no claim
depends on it). -/
def greedyAssign (cost : ℕ → ℕ → ℚ) (maxCost : ℚ) :
    List ℕ → List ℕ → List (ℕ × ℕ) × List ℕ × List ℕ
  | [], ds => ([], [], ds)
  | t :: ts, ds =>
    match pickBest (cost t) maxCost ds with
    | none =>
      let r := greedyAssign cost maxCost ts ds
      (r.1, t :: r.2.1, r.2.2)
    | some j =>
      let r := greedyAssign cost maxCost ts (ds.erase j)
      ((t, j) :: r.1, r.2.1, r.2.2)

/-- Modelled from the spec: `linear_assignment.min_cost_matching`.  Empty
candidate sets short-circuit to empty matches with all indices passed
through as unmatched (§7). -/
def min_cost_matching (cost : ℕ → ℕ → ℚ) (maxCost : ℚ)
    (track_indices detection_indices : List ℕ) :
    List (ℕ × ℕ) × List ℕ × List ℕ :=
  if track_indices.isEmpty ∨ detection_indices.isEmpty then
    ([], track_indices, detection_indices)
  else greedyAssign cost maxCost track_indices detection_indices

/-- One bucket per staleness level: level `l` holds the candidate tracks
with `time_since_update = l + 1`, matched against the detections left
unmatched by the less-stale levels. -/
def cascadeLevels (cost : ℕ → ℕ → ℚ) (maxCost : ℚ) (tsu : ℕ → ℕ)
    (track_indices : List ℕ) :
    List ℕ → List ℕ → List (ℕ × ℕ) × List ℕ
  | [], uds => ([], uds)
  | level :: levels, uds =>
    let bucket := track_indices.filter (fun k => tsu k = level + 1)
    let r1 := min_cost_matching cost maxCost bucket uds
    let r2 := cascadeLevels cost maxCost tsu track_indices levels r1.2.2
    (r1.1 ++ r2.1, r2.2)

/-- Modelled from the spec: `linear_assignment.matching_cascade` (§4.2
Stage A).  Tracks are grouped by `time_since_update` into buckets from 1
up to `cascade_depth = max_age`; starting from the least-stale bucket
each bucket is matched independently against the currently-unmatched
detections; accepted pairs shrink the detection pool for staler
buckets.  Unmatched tracks are the input tracks not matched at any
level. -/
def matching_cascade (cost : ℕ → ℕ → ℚ) (maxCost : ℚ) (cascade_depth : ℕ)
    (tsu : ℕ → ℕ) (track_indices detection_indices : List ℕ) :
    List (ℕ × ℕ) × List ℕ × List ℕ :=
  let r := cascadeLevels cost maxCost tsu track_indices
    (List.range cascade_depth) detection_indices
  (r.1, track_indices.filter (fun k => k ∉ r.1.map Prod.fst), r.2)

/-- `Tracker` (tracker.py lines 36–75): the core orchestrator.  The source
constructs its own `KalmanFilter()`; the filter is a modelled external
collaborator here, so it is carried as a field supplied at
construction. -/
structure Tracker where
  metric : NNDistanceMetric
  sub_metric : NNDistanceMetric
  max_iou_distance : ℚ
  max_age : ℕ
  n_init : ℕ
  kf : KalmanFilter
  tracks : List Track
  next_id : ℕ

/-- `Tracker.__init__` (lines 66–75): empty track list, identity counter
initialized to 1. -/
def Tracker.init (metric sub_metric : NNDistanceMetric) (max_iou_distance : ℚ)
    (max_age n_init : ℕ) (kf : KalmanFilter) : Tracker :=
  { metric, sub_metric, max_iou_distance, max_age, n_init, kf,
    tracks := [], next_id := 1 }

/-- `Tracker.predict` (lines 77–83): advance every track one time step. -/
def Tracker.predict (self : Tracker) : Tracker :=
  { self with tracks := self.tracks.map (fun t => t.predict self.kf) }

/-- `time_since_update` of the track at index `k`. -/
def Tracker.tsuAt (self : Tracker) (k : ℕ) : ℕ :=
  (self.tracks.getD k default).time_since_update

/-- `track_id` of the track at index `k`. -/
def Tracker.trackIdAt (self : Tracker) (k : ℕ) : ℕ :=
  (self.tracks.getD k default).track_id

/-- `gated_metric` (lines 131–139) combined with
`linear_assignment.gate_cost_matrix` (modelled from the spec, §4.2):
nearest-neighbor primary-appearance distance, with any entry whose
motion-gating (Mahalanobis) distance exceeds the gating threshold
replaced by the infeasible cost. -/
def Tracker.gatedCost (self : Tracker) (detections : List Detection)
    (ti di : ℕ) : ℚ :=
  let t := self.tracks.getD ti default
  let d := detections.getD di default
  if GATING_THRESHOLD < self.kf.gating_distance t.motion d.to_xyah then INFTY_COST
  else self.metric.nnDistanceTo t.track_id d.feature

/-- `iou_matching.iou_cost`, modelled from the spec (§6): `1 − IoU` between
the track's predicted box and the detection box. -/
def Tracker.iouCost (self : Tracker) (detections : List Detection)
    (ti di : ℕ) : ℚ :=
  1 - iou (self.tracks.getD ti default).to_tlbr (detections.getD di default).tlbr

/-- `sub_metric` cost (lines 141–146): nearest-neighbor secondary-feature
distance, with no motion gating.  (Detections offered to it always carry
a secondary feature; an absent one is mapped to the infeasible cost to
keep the function total.) -/
def Tracker.subCost (self : Tracker) (detections : List Detection)
    (ti di : ℕ) : ℚ :=
  match (detections.getD di default).sub_feature with
  | none => INFTY_COST
  | some f => self.sub_metric.nnDistanceTo (self.tracks.getD ti default).track_id f

/-- Indices of confirmed tracks (line 149–150). -/
def Tracker.confirmedIdx (self : Tracker) : List ℕ :=
  (List.range self.tracks.length).filter
    (fun i => (self.tracks.getD i default).is_confirmed)

/-- Indices of non-confirmed tracks (line 151–152). -/
def Tracker.unconfirmedIdx (self : Tracker) : List ℕ :=
  (List.range self.tracks.length).filter
    (fun i => !(self.tracks.getD i default).is_confirmed)

/-- Stage A (lines 154–158): cascaded gated appearance matching over the
confirmed tracks against all detections. -/
def Tracker.stageARun (self : Tracker) (detections : List Detection) :
    List (ℕ × ℕ) × List ℕ × List ℕ :=
  matching_cascade (self.gatedCost detections) self.metric.matching_threshold
    self.max_age self.tsuAt self.confirmedIdx (List.range detections.length)

/-- Stage B candidate tracks (lines 160–163): the non-confirmed tracks plus
the Stage-A-unmatched tracks with `time_since_update == 1`. -/
def Tracker.iouTrackCandidates (self : Tracker) (detections : List Detection) :
    List ℕ :=
  self.unconfirmedIdx ++
    ((self.stageARun detections).2.1).filter (fun k => self.tsuAt k == 1)

/-- Stage-A-unmatched tracks carried past Stage B (lines 164–166): those
with `time_since_update != 1`. -/
def Tracker.unmatchedA1 (self : Tracker) (detections : List Detection) : List ℕ :=
  ((self.stageARun detections).2.1).filter (fun k => !(self.tsuAt k == 1))

/-- Stage B (lines 167–170): one IoU min-cost matching of the candidate
tracks against the detections left unmatched by Stage A. -/
def Tracker.stageBRun (self : Tracker) (detections : List Detection) :
    List (ℕ × ℕ) × List ℕ × List ℕ :=
  min_cost_matching (self.iouCost detections) self.max_iou_distance
    (self.iouTrackCandidates detections) ((self.stageARun detections).2.2)

/-- Tracks unmatched after Stages A and B
(line 173, `set(unmatched_tracks_a + unmatched_tracks_b)`). -/
def Tracker.unmatchedAB (self : Tracker) (detections : List Detection) : List ℕ :=
  (self.unmatchedA1 detections ++ (self.stageBRun detections).2.1).dedup

/-- Stage C candidate tracks (lines 174–176): the A/B-unmatched tracks
whose identity has samples in the secondary-feature gallery. -/
def Tracker.subTrackCandidates (self : Tracker) (detections : List Detection) :
    List ℕ :=
  (self.unmatchedAB detections).filter
    (fun k => self.sub_metric.has_samples (self.trackIdAt k))

/-- Final unmatched tracks contributed before Stage C (lines 177–180):
A/B-unmatched tracks without secondary-gallery samples. -/
def Tracker.subTrackRest (self : Tracker) (detections : List Detection) : List ℕ :=
  (self.unmatchedAB detections).filter
    (fun k => !(self.sub_metric.has_samples (self.trackIdAt k)))

/-- Stage C candidate detections (lines 181–184): still-unmatched
detections carrying a secondary feature. -/
def Tracker.subDetCandidates (self : Tracker) (detections : List Detection) :
    List ℕ :=
  ((self.stageBRun detections).2.2).filter
    (fun k => ((detections.getD k default).sub_feature).isSome)

/-- Final unmatched detections contributed before Stage C (lines 185–188):
still-unmatched detections without a secondary feature. -/
def Tracker.subDetRest (self : Tracker) (detections : List Detection) : List ℕ :=
  ((self.stageBRun detections).2.2).filter
    (fun k => !((detections.getD k default).sub_feature).isSome)

/-- Stage C (lines 190–193): one secondary-feature min-cost matching of the
eligible tracks against the eligible detections. -/
def Tracker.stageCRun (self : Tracker) (detections : List Detection) :
    List (ℕ × ℕ) × List ℕ × List ℕ :=
  min_cost_matching (self.subCost detections) self.sub_metric.matching_threshold
    (self.subTrackCandidates detections) (self.subDetCandidates detections)

/-- `Tracker._match` (lines 129–198): the three-stage association cascade.
Returns the union of the three stages' matches together with the final
unmatched track and detection index lists (lines 195–198). -/
def Tracker._match (self : Tracker) (detections : List Detection) :
    List (ℕ × ℕ) × List ℕ × List ℕ :=
  ((self.stageARun detections).1 ++ (self.stageBRun detections).1 ++
      (self.stageCRun detections).1,
   self.subTrackRest detections ++ (self.stageCRun detections).2.1,
   self.subDetRest detections ++ (self.stageCRun detections).2.2)

/-- `Tracker._initiate_track` (lines 200–207): request an initial motion
state from the filter for the detection's `xyah` representation, append
a fresh `Tentative` track carrying the current identity-counter value
and the detection's features (§4.5: zero hits/age/time_since_update),
and increment the counter.  `freshTrack` is the track constructed by
`_initiate_track` for a detection, carrying the current counter value
as identity. -/
def Tracker.freshTrack (self : Tracker) (d : Detection) : Track :=
  { detection := some d
    motion := self.kf.initiate d.to_xyah
    track_id := self.next_id
    hits := 0
    age := 0
    time_since_update := 0
    state := TrackState.Tentative
    features := [d.feature]
    sub_features := [d.sub_feature]
    n_init := self.n_init
    max_age := self.max_age }

def Tracker._initiate_track (self : Tracker) (d : Detection) : Tracker :=
  { self with
    tracks := self.tracks ++ [self.freshTrack d]
    next_id := self.next_id + 1 }

/-- Replace the element at one position (the in-place update
`self.tracks[track_idx] = ...` of the source loop). -/
def modifyIdx (f : Track → Track) : List Track → ℕ → List Track
  | [], _ => []
  | t :: ts, 0 => f t :: ts
  | t :: ts, n + 1 => t :: modifyIdx f ts n

/-- The matched-track update loop (lines 99–101). -/
def applyMatches (kf : KalmanFilter) (detections : List Detection)
    (ts : List Track) (ms : List (ℕ × ℕ)) : List Track :=
  ms.foldl
    (fun acc p => modifyIdx (fun t => t.update kf (detections.getD p.2 default)) acc p.1)
    ts

/-- The unmatched-track miss loop (lines 102–103). -/
def applyMisses (ts : List Track) (idxs : List ℕ) : List Track :=
  idxs.foldl (fun acc i => modifyIdx Track.mark_missed acc i) ts

/-- One iteration of the new-track creation loop (lines 105–108): skip the
detection if the duplicate guard flags it against the current track
list, otherwise initiate a track for it.  The guard is called with the
source's default thresholds (`feat_thresh=0.9`, `iou_thresh=0.5`). -/
def Tracker.initiateStep (self : Tracker) (detections : List Detection)
    (di : ℕ) : Tracker :=
  if has_same_subfeat (detections.getD di default) self.tracks (9 / 10) (1 / 2) then self
  else self._initiate_track (detections.getD di default)

/-- The new-track creation loop over the unmatched detections
(lines 105–108). -/
def Tracker.initiateAll (self : Tracker) (detections : List Detection)
    (unmatched : List ℕ) : Tracker :=
  unmatched.foldl (fun tr di => tr.initiateStep detections di) self

/-- The gallery-refit collection loop (lines 112–122): per confirmed track,
its feature history labelled with its identity, and its non-absent
secondary features labelled likewise.  Returns
(features, targets, sub_feats, sub_targets). -/
def collectFeatures : List Track → List Feature × List ℕ × List Feature × List ℕ
  | [] => ([], [], [], [])
  | t :: ts =>
    let r := collectFeatures ts
    if t.is_confirmed then
      (t.features ++ r.1,
       t.features.map (fun _ => t.track_id) ++ r.2.1,
       t.sub_features.reduceOption ++ r.2.2.1,
       (t.sub_features.reduceOption).map (fun _ => t.track_id) ++ r.2.2.2)
    else r

/-- Lines 99–104 of `Tracker.update`: apply the matched-pair updates, mark
the unmatched tracks missed, and purge the tracks that reached
`Deleted`. -/
def Tracker.tracksAfterLifecycle (self : Tracker) (detections : List Detection) :
    List Track :=
  (applyMisses (applyMatches self.kf detections self.tracks (self._match detections).1)
      (self._match detections).2.1).filter (fun t => !t.is_deleted)

/-- Lines 99–108 of `Tracker.update`: the lifecycle pass followed by the
new-track creation loop over the unmatched detections. -/
def Tracker.afterInitiate (self : Tracker) (detections : List Detection) : Tracker :=
  ({ self with tracks := self.tracksAfterLifecycle detections }).initiateAll
    detections (self._match detections).2.2

/-- `Tracker.update` (lines 85–127): run the cascade, update matched
tracks, mark unmatched tracks missed, purge deleted tracks, create new
tracks for surviving unmatched detections, and refit both appearance
metrics on the confirmed tracks' feature histories with the confirmed
identities as active set. -/
def Tracker.update (self : Tracker) (detections : List Detection) : Tracker :=
  let self3 := self.afterInitiate detections
  let active_targets := (self3.tracks.filter Track.is_confirmed).map Track.track_id
  let c := collectFeatures self3.tracks
  { self3 with
    metric := self3.metric.partial_fit c.1 c.2.1 active_targets
    sub_metric := self3.sub_metric.partial_fit c.2.2.1 c.2.2.2 active_targets }


/-- Well-formedness of a tracker's identity assignment: the active tracks
carry pairwise-distinct identities, all strictly below the counter. -/
def TrackerWF (self : Tracker) : Prop :=
  (self.tracks.map Track.track_id).Nodup ∧
  ∀ x ∈ self.tracks.map Track.track_id, x < self.next_id

/-- A trivial concrete motion filter used for concrete executions. -/
def KF0 : KalmanFilter :=
  { initiate := fun _ => ([], [])
    predictStep := id
    updateStep := fun s _ => s
    gating_distance := fun _ _ => 0 }

/-- A concrete metric with an empty gallery. -/
def M0 : NNDistanceMetric :=
  { matching_threshold := 1, budget := none, samples := [] }

/-- A concrete metric whose gallery holds one sample for identity 1. -/
def M1 : NNDistanceMetric :=
  { matching_threshold := 1, budget := none, samples := [(1, [[0]])] }

/-- A concrete metric whose gallery holds one sample for identity 7. -/
def MS7 : NNDistanceMetric :=
  { matching_threshold := 1, budget := none, samples := [(7, [[0]])] }

/-- A freshly constructed concrete tracker with no tracks. -/
def T0 : Tracker := Tracker.init M0 M0 (7 / 10) 2 2 KF0

/-- A concrete detection at the unit box with no secondary feature. -/
def D1 : List Detection :=
  [{ tlbr := ⟨0, 0, 1, 1⟩, confidence := 1, feature := [0],
     sub_feature := none, sub_tlbr := ⟨0, 0, 0, 0⟩ }]

/-- A concrete confirmed track (identity 1, `time_since_update = 1`). -/
def TR1 : Track :=
  { detection := none, motion := ([0, 0, 1, 1], []), track_id := 1, hits := 3,
    age := 3, time_since_update := 1, state := TrackState.Confirmed,
    features := [[0]], sub_features := [none], n_init := 2, max_age := 1 }

/-- A concrete tracker holding the confirmed track `TR1`, with a primary
gallery for identity 1. -/
def T1 : Tracker :=
  { metric := M1, sub_metric := M0, max_iou_distance := 7 / 10, max_age := 1,
    n_init := 2, kf := KF0, tracks := [TR1], next_id := 2 }

/-- A concrete tentative track predicted at the unit box. -/
def TR2 : Track :=
  { detection := none, motion := ([1 / 2, 1 / 2, 1, 1], []), track_id := 1,
    hits := 1, age := 1, time_since_update := 0, state := TrackState.Tentative,
    features := [[0]], sub_features := [none], n_init := 2, max_age := 1 }

/-- A concrete tracker holding the tentative track `TR2`. -/
def T2 : Tracker :=
  { metric := M0, sub_metric := M0, max_iou_distance := 7 / 10, max_age := 1,
    n_init := 2, kf := KF0, tracks := [TR2], next_id := 2 }

/-- A concrete stale confirmed track (identity 7, `time_since_update = 5`)
whose identity has secondary-gallery samples in `MS7`. -/
def TR3 : Track :=
  { detection := none, motion := ([0, 0, 1, 1], []), track_id := 7, hits := 5,
    age := 9, time_since_update := 5, state := TrackState.Confirmed,
    features := [[0]], sub_features := [some [0]], n_init := 2, max_age := 1 }

/-- A concrete tracker holding the stale confirmed track `TR3`, with a
secondary gallery for identity 7. -/
def T3 : Tracker :=
  { metric := M0, sub_metric := MS7, max_iou_distance := 7 / 10, max_age := 1,
    n_init := 2, kf := KF0, tracks := [TR3], next_id := 8 }

/-- A concrete detection at the unit box carrying a secondary feature. -/
def dupD : Detection :=
  { tlbr := ⟨0, 0, 1, 1⟩, confidence := 1, feature := [0],
    sub_feature := some [0], sub_tlbr := ⟨0, 0, 1, 1⟩ }

/-- A concrete detection list with a secondary-featured detection. -/
def D3 : List Detection := [dupD]

/-- Two mutually-similar secondary-featured detections (identical boxes and
features). -/
def DD2 : List Detection := [dupD, dupD]

/-- A concrete confirmed track at the deletion threshold
(`max_age = 1`, `time_since_update = 1`). -/
def TR4 : Track :=
  { detection := none, motion := ([0, 0, 1, 1], []), track_id := 1, hits := 3,
    age := 5, time_since_update := 1, state := TrackState.Confirmed,
    features := [[0]], sub_features := [none], n_init := 2, max_age := 1 }

/-- A concrete active track whose last-associated detection is `dupD`. -/
def TRg : Track :=
  { detection := some dupD, motion := ([0, 0, 1, 1], []), track_id := 1,
    hits := 1, age := 1, time_since_update := 0, state := TrackState.Tentative,
    features := [[0]], sub_features := [some [0]], n_init := 2, max_age := 1 }

/-- A concrete tracker holding `TRg`. -/
def T4 : Tracker :=
  { metric := M0, sub_metric := M0, max_iou_distance := 7 / 10, max_age := 1,
    n_init := 2, kf := KF0, tracks := [TRg], next_id := 2 }

theorem argminBy_mem (f : ℕ → ℚ) (x : ℕ) (xs : List ℕ) :
    argminBy f x xs ∈ x :: xs := by
  induction xs generalizing x with
  | nil => simp [argminBy]
  | cons y ys ih =>
    by_cases hc : f y < f x
    · have heq : argminBy f x (y :: ys) = argminBy f y ys := by
        simp [argminBy, hc]
      rw [heq]
      rcases List.mem_cons.mp (ih y) with h1 | h1 <;> simp [h1]
    · have heq : argminBy f x (y :: ys) = argminBy f x ys := by
        simp [argminBy, hc]
      rw [heq]
      rcases List.mem_cons.mp (ih x) with h1 | h1 <;> simp [h1]

theorem pickBest_some {f : ℕ → ℚ} {maxCost : ℚ} {avail : List ℕ} {j : ℕ}
    (h : pickBest f maxCost avail = some j) : j ∈ avail ∧ f j ≤ maxCost := by
  unfold pickBest at h
  split at h
  · cases h
  · next j0 js0 heq =>
    injection h with h
    subst h
    have hmem := argminBy_mem f j0 js0
    rw [← heq] at hmem
    have h2 := List.mem_filter.mp hmem
    exact ⟨h2.1, by simpa using h2.2⟩

theorem greedyAssign_perm_tracks (cost : ℕ → ℕ → ℚ) (maxCost : ℚ)
    (ts : List ℕ) : ∀ ds : List ℕ,
    ((greedyAssign cost maxCost ts ds).1.map Prod.fst ++
      (greedyAssign cost maxCost ts ds).2.1).Perm ts := by
  induction ts with
  | nil => intro ds; simp [greedyAssign]
  | cons t ts ih =>
    intro ds
    cases hp : pickBest (cost t) maxCost ds with
    | none =>
      simp only [greedyAssign, hp]
      exact List.perm_middle.trans ((ih ds).cons t)
    | some j =>
      simp only [greedyAssign, hp, List.map_cons, List.cons_append]
      exact (ih (ds.erase j)).cons t

theorem greedyAssign_perm_dets (cost : ℕ → ℕ → ℚ) (maxCost : ℚ)
    (ts : List ℕ) : ∀ ds : List ℕ,
    ((greedyAssign cost maxCost ts ds).1.map Prod.snd ++
      (greedyAssign cost maxCost ts ds).2.2).Perm ds := by
  induction ts with
  | nil => intro ds; simp [greedyAssign]
  | cons t ts ih =>
    intro ds
    cases hp : pickBest (cost t) maxCost ds with
    | none =>
      simp only [greedyAssign, hp]
      exact ih ds
    | some j =>
      simp only [greedyAssign, hp, List.map_cons, List.cons_append]
      have hj := (pickBest_some hp).1
      exact ((ih (ds.erase j)).cons j).trans (List.perm_cons_erase hj).symm

theorem greedyAssign_mem (cost : ℕ → ℕ → ℚ) (maxCost : ℚ)
    (ts : List ℕ) : ∀ ds : List ℕ, ∀ p ∈ (greedyAssign cost maxCost ts ds).1,
    p.1 ∈ ts ∧ p.2 ∈ ds ∧ cost p.1 p.2 ≤ maxCost := by
  induction ts with
  | nil => intro ds p hp; simp [greedyAssign] at hp
  | cons t ts ih =>
    intro ds p hp
    cases hq : pickBest (cost t) maxCost ds with
    | none =>
      simp only [greedyAssign, hq] at hp
      obtain ⟨h1, h2, h3⟩ := ih ds p hp
      exact ⟨List.mem_cons_of_mem _ h1, h2, h3⟩
    | some j =>
      simp only [greedyAssign, hq, List.mem_cons] at hp
      rcases hp with rfl | hp
      · obtain ⟨hj, hc⟩ := pickBest_some hq
        exact ⟨List.mem_cons_self _ _, hj, hc⟩
      · obtain ⟨h1, h2, h3⟩ := ih (ds.erase j) p hp
        exact ⟨List.mem_cons_of_mem _ h1, List.erase_subset _ _ h2, h3⟩

theorem min_cost_matching_perm_tracks (cost : ℕ → ℕ → ℚ) (maxCost : ℚ)
    (ti di : List ℕ) :
    ((min_cost_matching cost maxCost ti di).1.map Prod.fst ++
      (min_cost_matching cost maxCost ti di).2.1).Perm ti := by
  unfold min_cost_matching
  split
  · simp
  · exact greedyAssign_perm_tracks cost maxCost ti di

theorem min_cost_matching_perm_dets (cost : ℕ → ℕ → ℚ) (maxCost : ℚ)
    (ti di : List ℕ) :
    ((min_cost_matching cost maxCost ti di).1.map Prod.snd ++
      (min_cost_matching cost maxCost ti di).2.2).Perm di := by
  unfold min_cost_matching
  split
  · simp
  · exact greedyAssign_perm_dets cost maxCost ti di

theorem min_cost_matching_mem (cost : ℕ → ℕ → ℚ) (maxCost : ℚ)
    (ti di : List ℕ) : ∀ p ∈ (min_cost_matching cost maxCost ti di).1,
    p.1 ∈ ti ∧ p.2 ∈ di ∧ cost p.1 p.2 ≤ maxCost := by
  unfold min_cost_matching
  split
  · simp
  · exact greedyAssign_mem cost maxCost ti di

theorem cascadeLevels_perm_dets (cost : ℕ → ℕ → ℚ) (maxCost : ℚ)
    (tsu : ℕ → ℕ) (ti : List ℕ) (levels : List ℕ) : ∀ uds : List ℕ,
    ((cascadeLevels cost maxCost tsu ti levels uds).1.map Prod.snd ++
      (cascadeLevels cost maxCost tsu ti levels uds).2).Perm uds := by
  induction levels with
  | nil => intro uds; simp [cascadeLevels]
  | cons level levels ih =>
    intro uds
    simp only [cascadeLevels, List.map_append, List.append_assoc]
    exact (((ih _).append_left _).trans
      (min_cost_matching_perm_dets cost maxCost _ uds))

theorem cascadeLevels_mem (cost : ℕ → ℕ → ℚ) (maxCost : ℚ)
    (tsu : ℕ → ℕ) (ti : List ℕ) (levels : List ℕ) : ∀ uds : List ℕ,
    ∀ p ∈ (cascadeLevels cost maxCost tsu ti levels uds).1,
    p.1 ∈ ti ∧ (∃ lv ∈ levels, tsu p.1 = lv + 1) ∧ p.2 ∈ uds ∧
      cost p.1 p.2 ≤ maxCost := by
  induction levels with
  | nil => intro uds p hp; simp [cascadeLevels] at hp
  | cons level levels ih =>
    intro uds p hp
    simp only [cascadeLevels, List.mem_append] at hp
    rcases hp with hp | hp
    · obtain ⟨h1, h2, h3⟩ := min_cost_matching_mem cost maxCost _ uds p hp
      have h1' := List.mem_filter.mp h1
      refine ⟨h1'.1, ⟨level, List.mem_cons_self _ _, by simpa using h1'.2⟩, h2, h3⟩
    · obtain ⟨h1, ⟨lv, hlv, hlv2⟩, h2, h3⟩ := ih _ p hp
      refine ⟨h1, ⟨lv, List.mem_cons_of_mem _ hlv, hlv2⟩, ?_, h3⟩
      have hperm := min_cost_matching_perm_dets cost maxCost
        (ti.filter (fun k => tsu k = level + 1)) uds
      exact hperm.subset (List.mem_append_right _ h2)

theorem cascadeLevels_nodup_fst (cost : ℕ → ℕ → ℚ) (maxCost : ℚ)
    (tsu : ℕ → ℕ) (ti : List ℕ) (levels : List ℕ) : ∀ uds : List ℕ,
    levels.Nodup → ti.Nodup →
    ((cascadeLevels cost maxCost tsu ti levels uds).1.map Prod.fst).Nodup := by
  induction levels with
  | nil => intro uds _ _; simp [cascadeLevels]
  | cons level levels ih =>
    intro uds hlv hti
    simp only [cascadeLevels, List.map_append]
    have hbucket : (ti.filter (fun k => tsu k = level + 1)).Nodup :=
      hti.filter _
    have h1 : (((min_cost_matching cost maxCost
        (ti.filter (fun k => tsu k = level + 1)) uds).1).map Prod.fst).Nodup := by
      have hp := min_cost_matching_perm_tracks cost maxCost
        (ti.filter (fun k => tsu k = level + 1)) uds
      exact (hp.symm.nodup hbucket).of_append_left
    have h2 := ih ((min_cost_matching cost maxCost
      (ti.filter (fun k => tsu k = level + 1)) uds).2.2)
      (List.nodup_cons.mp hlv).2 hti
    refine h1.append h2 ?_
    intro x hx1 hx2
    obtain ⟨p, hp, rfl⟩ := List.mem_map.mp hx1
    obtain ⟨q, hq, hqx⟩ := List.mem_map.mp hx2
    have hpb := (min_cost_matching_mem cost maxCost _ uds p hp).1
    have hptsu : tsu p.1 = level + 1 := by
      simpa using (List.mem_filter.mp hpb).2
    obtain ⟨_, ⟨lv, hlv1, hlv2⟩, _, _⟩ := cascadeLevels_mem cost maxCost tsu ti levels _ q hq
    rw [hqx] at hlv2
    rw [hptsu] at hlv2
    have : lv = level := by omega
    subst this
    exact (List.nodup_cons.mp hlv).1 hlv1

theorem matching_cascade_perm_dets (cost : ℕ → ℕ → ℚ) (maxCost : ℚ)
    (depth : ℕ) (tsu : ℕ → ℕ) (ti di : List ℕ) :
    ((matching_cascade cost maxCost depth tsu ti di).1.map Prod.snd ++
      (matching_cascade cost maxCost depth tsu ti di).2.2).Perm di := by
  unfold matching_cascade
  exact cascadeLevels_perm_dets cost maxCost tsu ti (List.range depth) di

theorem matching_cascade_mem (cost : ℕ → ℕ → ℚ) (maxCost : ℚ)
    (depth : ℕ) (tsu : ℕ → ℕ) (ti di : List ℕ) :
    ∀ p ∈ (matching_cascade cost maxCost depth tsu ti di).1,
    p.1 ∈ ti ∧ p.2 ∈ di ∧ cost p.1 p.2 ≤ maxCost := by
  intro p hp
  obtain ⟨h1, _, h2, h3⟩ :=
    cascadeLevels_mem cost maxCost tsu ti (List.range depth) di p hp
  exact ⟨h1, h2, h3⟩

theorem matching_cascade_nodup_fst (cost : ℕ → ℕ → ℚ) (maxCost : ℚ)
    (depth : ℕ) (tsu : ℕ → ℕ) (ti di : List ℕ) (hti : ti.Nodup) :
    ((matching_cascade cost maxCost depth tsu ti di).1.map Prod.fst).Nodup :=
  cascadeLevels_nodup_fst cost maxCost tsu ti (List.range depth) di
    (List.nodup_range depth) hti

theorem matching_cascade_perm_tracks (cost : ℕ → ℕ → ℚ) (maxCost : ℚ)
    (depth : ℕ) (tsu : ℕ → ℕ) (ti di : List ℕ) (hti : ti.Nodup) :
    ((matching_cascade cost maxCost depth tsu ti di).1.map Prod.fst ++
      (matching_cascade cost maxCost depth tsu ti di).2.1).Perm ti := by
  have hM : ((matching_cascade cost maxCost depth tsu ti di).1.map Prod.fst).Nodup :=
    matching_cascade_nodup_fst cost maxCost depth tsu ti di hti
  have hsub : ∀ x ∈ (matching_cascade cost maxCost depth tsu ti di).1.map Prod.fst,
      x ∈ ti := by
    intro x hx
    obtain ⟨p, hp, rfl⟩ := List.mem_map.mp hx
    exact (matching_cascade_mem cost maxCost depth tsu ti di p hp).1
  have hUT : (matching_cascade cost maxCost depth tsu ti di).2.1 =
      ti.filter (fun k =>
        k ∉ (matching_cascade cost maxCost depth tsu ti di).1.map Prod.fst) := rfl
  rw [hUT]
  refine (List.perm_ext_iff_of_nodup ?_ hti).mpr ?_
  · refine hM.append (hti.filter _) ?_
    intro x hx1 hx2
    have := (List.mem_filter.mp hx2).2
    simp only [decide_eq_true_eq] at this
    exact this hx1
  · intro a
    simp only [List.mem_append, List.mem_filter, decide_eq_true_eq]
    constructor
    · rintro (h | ⟨h, _⟩)
      · exact hsub a h
      · exact h
    · intro h
      by_cases hm : a ∈ (matching_cascade cost maxCost depth tsu ti di).1.map Prod.fst
      · exact Or.inl hm
      · exact Or.inr ⟨h, hm⟩

theorem partition_chain {m : ℕ} {Asnd UDA Bsnd UDB SDC RESTD Csnd UDC : List ℕ}
    (QA : (Asnd ++ UDA).Perm (List.range m))
    (QB : (Bsnd ++ UDB).Perm UDA)
    (QF : (SDC ++ RESTD).Perm UDB)
    (QC : (Csnd ++ UDC).Perm SDC) :
    ((Asnd ++ Bsnd ++ Csnd) ++ (RESTD ++ UDC)).Perm (List.range m) := by
  refine Multiset.coe_eq_coe.mp ?_
  have qa := Multiset.coe_eq_coe.mpr QA
  have qb := Multiset.coe_eq_coe.mpr QB
  have qf := Multiset.coe_eq_coe.mpr QF
  have qc := Multiset.coe_eq_coe.mpr QC
  simp only [← Multiset.coe_add] at qa qb qf qc ⊢
  rw [← qa, ← qb, ← qf, ← qc]
  abel

theorem partition_pipeline {n : ℕ}
    {CONF UNCONF Afst UTA UTAeq1 UTA1 Bfst UTB UAB STC RESTT Cfst UTC : List ℕ}
    (PU : (CONF ++ UNCONF).Perm (List.range n))
    (PA : (Afst ++ UTA).Perm CONF)
    (PS : (UTAeq1 ++ UTA1).Perm UTA)
    (PB : (Bfst ++ UTB).Perm (UNCONF ++ UTAeq1))
    (hUAB : UAB = UTA1 ++ UTB)
    (PF : (STC ++ RESTT).Perm UAB)
    (PC : (Cfst ++ UTC).Perm STC) :
    ((Afst ++ Bfst ++ Cfst) ++ (RESTT ++ UTC)).Perm (List.range n) := by
  refine Multiset.coe_eq_coe.mp ?_
  have pu := Multiset.coe_eq_coe.mpr PU
  have pa := Multiset.coe_eq_coe.mpr PA
  have ps := Multiset.coe_eq_coe.mpr PS
  have pb := Multiset.coe_eq_coe.mpr PB
  have pf := Multiset.coe_eq_coe.mpr PF
  have pc := Multiset.coe_eq_coe.mpr PC
  have pab : (UAB : Multiset ℕ) = (UTA1 : Multiset ℕ) + (UTB : Multiset ℕ) := by
    rw [hUAB, Multiset.coe_add]
  simp only [← Multiset.coe_add] at pu pa ps pb pf pc ⊢
  have key : (↑(List.range n) : Multiset ℕ) =
      (↑Afst + ↑Bfst + ↑Cfst) + (↑RESTT + ↑UTC) := by
    calc (↑(List.range n) : Multiset ℕ)
        = ↑CONF + ↑UNCONF := pu.symm
      _ = (↑Afst + ↑UTA) + ↑UNCONF := by rw [pa]
      _ = (↑Afst + (↑UTAeq1 + ↑UTA1)) + ↑UNCONF := by rw [ps]
      _ = ↑Afst + ↑UTA1 + (↑UNCONF + ↑UTAeq1) := by abel
      _ = ↑Afst + ↑UTA1 + (↑Bfst + ↑UTB) := by rw [pb]
      _ = ↑Afst + ↑Bfst + (↑UTA1 + ↑UTB) := by abel
      _ = ↑Afst + ↑Bfst + ↑UAB := by rw [pab]
      _ = ↑Afst + ↑Bfst + (↑STC + ↑RESTT) := by rw [← pf]
      _ = ↑Afst + ↑Bfst + ((↑Cfst + ↑UTC) + ↑RESTT) := by rw [← pc]
      _ = (↑Afst + ↑Bfst + ↑Cfst) + (↑RESTT + ↑UTC) := by abel
  exact key.symm

theorem conf_unconf_perm (self : Tracker) :
    (self.confirmedIdx ++ self.unconfirmedIdx).Perm
      (List.range self.tracks.length) :=
  List.filter_append_perm _ _

theorem stageA_perm_tracks (self : Tracker) (dets : List Detection) :
    (((self.stageARun dets).1.map Prod.fst) ++ (self.stageARun dets).2.1).Perm
      self.confirmedIdx :=
  matching_cascade_perm_tracks _ _ _ _ _ _ ((List.nodup_range _).filter _)

theorem match_perm_tracks (self : Tracker) (dets : List Detection) :
    (((self._match dets).1.map Prod.fst) ++ (self._match dets).2.1).Perm
      (List.range self.tracks.length) := by
  have hconf_nd : self.confirmedIdx.Nodup := (List.nodup_range _).filter _
  have hunconf_nd : self.unconfirmedIdx.Nodup := (List.nodup_range _).filter _
  have PA := stageA_perm_tracks self dets
  have hUTA_nd : (self.stageARun dets).2.1.Nodup :=
    (PA.symm.nodup hconf_nd).of_append_right
  have hUTAsub : ∀ x ∈ (self.stageARun dets).2.1, x ∈ self.confirmedIdx :=
    fun x hx => PA.subset (List.mem_append_right _ hx)
  have hconf_mem : ∀ x ∈ self.confirmedIdx,
      (self.tracks.getD x default).is_confirmed = true :=
    fun x hx => (List.mem_filter.mp hx).2
  have hunconf_mem : ∀ x ∈ self.unconfirmedIdx,
      ¬ ((self.tracks.getD x default).is_confirmed = true) := by
    intro x hx h
    have h2 := (List.mem_filter.mp hx).2
    rw [h] at h2
    simp at h2
  have PS : ((self.stageARun dets).2.1.filter (fun k => self.tsuAt k == 1) ++
      self.unmatchedA1 dets).Perm (self.stageARun dets).2.1 :=
    List.filter_append_perm _ _
  have PB : (((self.stageBRun dets).1.map Prod.fst) ++ (self.stageBRun dets).2.1).Perm
      (self.iouTrackCandidates dets) :=
    min_cost_matching_perm_tracks _ _ _ _
  have hcandb_nd : (self.iouTrackCandidates dets).Nodup := by
    refine hunconf_nd.append (hUTA_nd.filter _) ?_
    intro x hx1 hx2
    have h2 := (List.mem_filter.mp hx2).1
    exact (hunconf_mem x hx1) (hconf_mem x (hUTAsub x h2))
  have hUTB_nd : (self.stageBRun dets).2.1.Nodup :=
    (PB.symm.nodup hcandb_nd).of_append_right
  have hUTBsub : ∀ x ∈ (self.stageBRun dets).2.1, x ∈ self.iouTrackCandidates dets :=
    fun x hx => PB.subset (List.mem_append_right _ hx)
  have hUAB : self.unmatchedAB dets =
      self.unmatchedA1 dets ++ (self.stageBRun dets).2.1 := by
    unfold Tracker.unmatchedAB
    refine List.dedup_eq_self.mpr ?_
    refine ((hUTA_nd.filter _).append hUTB_nd) ?_
    intro x hx1 hx2
    have h1 := List.mem_filter.mp hx1
    rcases List.mem_append.mp (hUTBsub x hx2) with h | h
    · exact (hunconf_mem x h) (hconf_mem x (hUTAsub x h1.1))
    · have h3 := (List.mem_filter.mp h).2
      have h4 := h1.2
      rw [h3] at h4
      simp at h4
  have PF : (self.subTrackCandidates dets ++ self.subTrackRest dets).Perm
      (self.unmatchedAB dets) := List.filter_append_perm _ _
  have PC : (((self.stageCRun dets).1.map Prod.fst) ++ (self.stageCRun dets).2.1).Perm
      (self.subTrackCandidates dets) := min_cost_matching_perm_tracks _ _ _ _
  have main := partition_pipeline (conf_unconf_perm self) PA PS PB hUAB PF PC
  show (((self.stageARun dets).1 ++ (self.stageBRun dets).1 ++
      (self.stageCRun dets).1).map Prod.fst ++
      (self.subTrackRest dets ++ (self.stageCRun dets).2.1)).Perm
      (List.range self.tracks.length)
  simp only [List.map_append]
  exact main

theorem match_perm_dets (self : Tracker) (dets : List Detection) :
    (((self._match dets).1.map Prod.snd) ++ (self._match dets).2.2).Perm
      (List.range dets.length) := by
  have QA : (((self.stageARun dets).1.map Prod.snd) ++ (self.stageARun dets).2.2).Perm
      (List.range dets.length) := matching_cascade_perm_dets _ _ _ _ _ _
  have QB : (((self.stageBRun dets).1.map Prod.snd) ++ (self.stageBRun dets).2.2).Perm
      (self.stageARun dets).2.2 := min_cost_matching_perm_dets _ _ _ _
  have QF : (self.subDetCandidates dets ++ self.subDetRest dets).Perm
      (self.stageBRun dets).2.2 := List.filter_append_perm _ _
  have QC : (((self.stageCRun dets).1.map Prod.snd) ++ (self.stageCRun dets).2.2).Perm
      (self.subDetCandidates dets) := min_cost_matching_perm_dets _ _ _ _
  have main := partition_chain QA QB QF QC
  show (((self.stageARun dets).1 ++ (self.stageBRun dets).1 ++
      (self.stageCRun dets).1).map Prod.snd ++
      (self.subDetRest dets ++ (self.stageCRun dets).2.2)).Perm
      (List.range dets.length)
  simp only [List.map_append]
  exact main

theorem initiateStep_cases (self : Tracker) (dets : List Detection) (di : ℕ) :
    self.initiateStep dets di = self ∨
    self.initiateStep dets di = self._initiate_track (dets.getD di default) := by
  unfold Tracker.initiateStep
  split
  · exact Or.inl rfl
  · exact Or.inr rfl

theorem initiateAll_split (dets : List Detection) : ∀ (u : List ℕ) (self : Tracker),
    ∃ created : List Track,
      (self.initiateAll dets u).tracks = self.tracks ++ created ∧
      (∀ t ∈ created, t.state = TrackState.Tentative) ∧
      (self.initiateAll dets u).metric = self.metric ∧
      (self.initiateAll dets u).sub_metric = self.sub_metric ∧
      self.next_id ≤ (self.initiateAll dets u).next_id := by
  intro u
  induction u with
  | nil =>
    intro self
    exact ⟨[], by simp [Tracker.initiateAll], by simp, rfl, rfl, le_refl _⟩
  | cons di u ih =>
    intro self
    have hstep : self.initiateAll dets (di :: u) =
        (self.initiateStep dets di).initiateAll dets u := rfl
    rcases initiateStep_cases self dets di with he | he
    · rw [hstep, he]
      exact ih self
    · obtain ⟨created, h1, h2, h3, h4, h5⟩ := ih (self._initiate_track (dets.getD di default))
      rw [hstep, he]
      refine ⟨self.freshTrack (dets.getD di default) :: created, ?_, ?_, ?_, ?_, ?_⟩
      · rw [h1]
        simp [Tracker._initiate_track]
      · intro t ht
        rcases List.mem_cons.mp ht with rfl | ht
        · rfl
        · exact h2 t ht
      · rw [h3]; rfl
      · rw [h4]; rfl
      · have hni : (self._initiate_track (dets.getD di default)).next_id =
            self.next_id + 1 := rfl
        omega

theorem modifyIdx_map_track_id (f : Track → Track)
    (hf : ∀ t, (f t).track_id = t.track_id) :
    ∀ (ts : List Track) (i : ℕ),
    (modifyIdx f ts i).map Track.track_id = ts.map Track.track_id := by
  intro ts
  induction ts with
  | nil => intro i; rfl
  | cons t ts ih =>
    intro i
    cases i with
    | zero => simp [modifyIdx, hf]
    | succ n => simp [modifyIdx, ih]

theorem Track.update_track_id (t : Track) (kf : KalmanFilter) (d : Detection) :
    (t.update kf d).track_id = t.track_id := rfl

theorem Track.mark_missed_track_id (t : Track) :
    (t.mark_missed).track_id = t.track_id := by
  cases ht : t.state <;> simp [Track.mark_missed, ht]

theorem applyMatches_map_track_id (kf : KalmanFilter) (dets : List Detection) :
    ∀ (ms : List (ℕ × ℕ)) (ts : List Track),
    (applyMatches kf dets ts ms).map Track.track_id = ts.map Track.track_id := by
  intro ms
  induction ms with
  | nil => intro ts; rfl
  | cons p ms ih =>
    intro ts
    have hstep : applyMatches kf dets ts (p :: ms) =
        applyMatches kf dets
          (modifyIdx (fun t => t.update kf (dets.getD p.2 default)) ts p.1) ms := rfl
    rw [hstep, ih, modifyIdx_map_track_id _ (fun t => Track.update_track_id t kf _)]

theorem applyMisses_map_track_id :
    ∀ (idxs : List ℕ) (ts : List Track),
    (applyMisses ts idxs).map Track.track_id = ts.map Track.track_id := by
  intro idxs
  induction idxs with
  | nil => intro ts; rfl
  | cons i idxs ih =>
    intro ts
    have hstep : applyMisses ts (i :: idxs) =
        applyMisses (modifyIdx Track.mark_missed ts i) idxs := rfl
    rw [hstep, ih, modifyIdx_map_track_id _ Track.mark_missed_track_id]

theorem collectFeatures_eq (ts : List Track) :
    collectFeatures ts =
      ((ts.filter Track.is_confirmed).flatMap Track.features,
       (ts.filter Track.is_confirmed).flatMap
         (fun t => t.features.map (fun _ => t.track_id)),
       (ts.filter Track.is_confirmed).flatMap
         (fun t => t.sub_features.reduceOption),
       (ts.filter Track.is_confirmed).flatMap
         (fun t => (t.sub_features.reduceOption).map (fun _ => t.track_id))) := by
  induction ts with
  | nil => simp [collectFeatures]
  | cons t ts ih =>
    by_cases h : t.is_confirmed
    · simp [collectFeatures, h, ih, List.filter_cons]
    · simp only [Bool.not_eq_true] at h
      simp [collectFeatures, h, ih, List.filter_cons]

theorem update_metric_eq (self : Tracker) (dets : List Detection) :
    (self.update dets).metric =
      self.metric.partial_fit
        (((self.update dets).tracks.filter Track.is_confirmed).flatMap Track.features)
        (((self.update dets).tracks.filter Track.is_confirmed).flatMap
          (fun t => t.features.map (fun _ => t.track_id)))
        (((self.update dets).tracks.filter Track.is_confirmed).map Track.track_id) := by
  have hmetric : (self.afterInitiate dets).metric = self.metric := by
    unfold Tracker.afterInitiate
    obtain ⟨c, _, _, h3, _, _⟩ :=
      initiateAll_split dets ((self._match dets).2.2)
        { self with tracks := self.tracksAfterLifecycle dets }
    exact h3
  show (self.afterInitiate dets).metric.partial_fit
      (collectFeatures (self.afterInitiate dets).tracks).1
      (collectFeatures (self.afterInitiate dets).tracks).2.1
      (((self.afterInitiate dets).tracks.filter Track.is_confirmed).map Track.track_id) =
    _
  rw [hmetric, collectFeatures_eq]
  rfl

theorem update_sub_metric_eq (self : Tracker) (dets : List Detection) :
    (self.update dets).sub_metric =
      self.sub_metric.partial_fit
        (((self.update dets).tracks.filter Track.is_confirmed).flatMap
          (fun t => t.sub_features.reduceOption))
        (((self.update dets).tracks.filter Track.is_confirmed).flatMap
          (fun t => (t.sub_features.reduceOption).map (fun _ => t.track_id)))
        (((self.update dets).tracks.filter Track.is_confirmed).map Track.track_id) := by
  have hmetric : (self.afterInitiate dets).sub_metric = self.sub_metric := by
    unfold Tracker.afterInitiate
    obtain ⟨c, _, _, _, h4, _⟩ :=
      initiateAll_split dets ((self._match dets).2.2)
        { self with tracks := self.tracksAfterLifecycle dets }
    exact h4
  show (self.afterInitiate dets).sub_metric.partial_fit
      (collectFeatures (self.afterInitiate dets).tracks).2.2.1
      (collectFeatures (self.afterInitiate dets).tracks).2.2.2
      (((self.afterInitiate dets).tracks.filter Track.is_confirmed).map Track.track_id) =
    _
  rw [hmetric, collectFeatures_eq]
  rfl

theorem has_same_subfeat_none (det : Detection) (tracks : List Track)
    (ft it : ℚ) (h : det.sub_feature = none) :
    has_same_subfeat det tracks ft it = false := by
  unfold has_same_subfeat
  rw [h]

theorem has_same_subfeat_true_iff (det : Detection) (tracks : List Track)
    (ft it : ℚ) (g : Feature) (h : det.sub_feature = some g) :
    (has_same_subfeat det tracks ft it = true ↔
      ∃ tr ∈ tracks, ∃ td f, tr.detection = some td ∧ td.sub_feature = some f ∧
        it < iou det.sub_tlbr td.sub_tlbr ∧ sqDist g f < ft ^ 2) := by
  unfold has_same_subfeat
  rw [h]
  simp only [List.any_eq_true, List.mem_filter, decide_eq_true_eq]
  constructor
  · rintro ⟨tr, ⟨htr, hc1, hc2⟩, hp⟩
    obtain ⟨td, htd⟩ := Option.isSome_iff_exists.mp hc1
    rw [htd] at hc2 hp
    simp only [Option.getD_some] at hc2 hp
    obtain ⟨f, hf⟩ := Option.isSome_iff_exists.mp hc2
    rw [hf] at hp
    simp only [Option.getD_some] at hp
    exact ⟨tr, htr, td, f, htd, hf, hp.1, hp.2⟩
  · rintro ⟨tr, htr, td, f, htd, hf, h1, h2⟩
    refine ⟨tr, ⟨htr, ?_, ?_⟩, ?_⟩
    · rw [htd]; rfl
    · rw [htd]; simp [hf]
    · rw [htd]
      simp only [Option.getD_some]
      rw [hf]
      simp only [Option.getD_some]
      exact ⟨h1, h2⟩

theorem stageA_gating (self : Tracker) (dets : List Detection)
    (h : self.metric.matching_threshold < INFTY_COST) :
    ∀ p ∈ (self.stageARun dets).1,
      p.1 ∈ self.confirmedIdx ∧ p.2 ∈ List.range dets.length ∧
      self.kf.gating_distance (self.tracks.getD p.1 default).motion
        ((dets.getD p.2 default).to_xyah) ≤ GATING_THRESHOLD := by
  intro p hp
  obtain ⟨h1, h2, h3⟩ := matching_cascade_mem (self.gatedCost dets)
    self.metric.matching_threshold self.max_age self.tsuAt self.confirmedIdx
    (List.range dets.length) p hp
  refine ⟨h1, h2, ?_⟩
  by_contra hgt
  push_neg at hgt
  have hic : self.gatedCost dets p.1 p.2 = INFTY_COST := by
    unfold Tracker.gatedCost
    rw [if_pos hgt]
  rw [hic] at h3
  exact absurd (lt_of_le_of_lt h3 h) (lt_irrefl _)

theorem Track.update_confirmed (t : Track) (kf : KalmanFilter) (d : Detection)
    (h : t.state = TrackState.Confirmed) :
    (t.update kf d).state = TrackState.Confirmed ∧
    (t.update kf d).time_since_update = 0 := by
  simp [Track.update, h]

theorem Track.mark_missed_confirmed_iff (t : Track)
    (h : t.state = TrackState.Confirmed) :
    ((t.mark_missed).state = TrackState.Deleted ↔
      t.max_age < t.time_since_update + 1) := by
  simp only [Track.mark_missed, h]
  split_ifs with hc
  · simp [hc]
  · simp [hc]

theorem modifyIdx_get? (f : Track → Track) :
    ∀ (ts : List Track) (i j : ℕ),
    (modifyIdx f ts i).get? j =
      if i = j then (ts.get? j).map f else ts.get? j := by
  intro ts
  induction ts with
  | nil =>
    intro i j
    simp [modifyIdx]
  | cons t ts ih =>
    intro i j
    cases i with
    | zero =>
      cases j with
      | zero => simp [modifyIdx]
      | succ m => simp [modifyIdx]
    | succ n =>
      cases j with
      | zero => simp [modifyIdx]
      | succ m => simpa [modifyIdx] using ih n m

theorem applyMisses_get? (idxs : List ℕ) : ∀ (ts : List Track), idxs.Nodup →
    ∀ j, (applyMisses ts idxs).get? j =
      if j ∈ idxs then (ts.get? j).map Track.mark_missed else ts.get? j := by
  induction idxs with
  | nil => intro ts _ j; simp [applyMisses]
  | cons i idxs ih =>
    intro ts hnd j
    have hstep : applyMisses ts (i :: idxs) =
        applyMisses (modifyIdx Track.mark_missed ts i) idxs := rfl
    rw [hstep, ih _ (List.nodup_cons.mp hnd).2 j, modifyIdx_get?]
    by_cases hj : j ∈ idxs
    · have hji : ¬ (i = j) := fun he => (List.nodup_cons.mp hnd).1 (he ▸ hj)
      simp [hj, hji]
    · by_cases hij : i = j
      · subst hij
        simp [hj]
      · have hji : ¬ (j = i) := fun he => hij he.symm
        simp [hj, hij, hji]

theorem applyMisses_eq_map (ts : List Track) (idxs : List ℕ)
    (hnd : idxs.Nodup) (hcov : ∀ j, j ∈ idxs ↔ j < ts.length) :
    applyMisses ts idxs = ts.map Track.mark_missed := by
  apply List.ext
  intro j
  rw [applyMisses_get? idxs ts hnd j, List.get?_map]
  by_cases hj : j ∈ idxs
  · simp [hj]
  · have hlen : ¬ j < ts.length := fun h => hj ((hcov j).mpr h)
    rw [if_neg hj, List.get?_eq_none.mpr (le_of_not_lt hlen)]
    rfl

theorem min_cost_matching_nil_tracks (cost : ℕ → ℕ → ℚ) (maxCost : ℚ)
    (di : List ℕ) : min_cost_matching cost maxCost [] di = ([], [], di) := by
  simp [min_cost_matching]

theorem min_cost_matching_nil_dets (cost : ℕ → ℕ → ℚ) (maxCost : ℚ)
    (ti : List ℕ) : min_cost_matching cost maxCost ti [] = ([], ti, []) := by
  simp [min_cost_matching]

theorem cascadeLevels_nil_dets (cost : ℕ → ℕ → ℚ) (maxCost : ℚ)
    (tsu : ℕ → ℕ) (ti : List ℕ) : ∀ levels : List ℕ,
    cascadeLevels cost maxCost tsu ti levels [] = ([], []) := by
  intro levels
  induction levels with
  | nil => rfl
  | cons level levels ih =>
    simp [cascadeLevels, min_cost_matching_nil_dets, ih]

theorem cascadeLevels_nil_tracks (cost : ℕ → ℕ → ℚ) (maxCost : ℚ)
    (tsu : ℕ → ℕ) : ∀ (levels uds : List ℕ),
    cascadeLevels cost maxCost tsu [] levels uds = ([], uds) := by
  intro levels
  induction levels with
  | nil => intro uds; rfl
  | cons level levels ih =>
    intro uds
    simp [cascadeLevels, min_cost_matching_nil_tracks, ih]

theorem matching_cascade_nil_dets (cost : ℕ → ℕ → ℚ) (maxCost : ℚ)
    (depth : ℕ) (tsu : ℕ → ℕ) (ti : List ℕ) :
    matching_cascade cost maxCost depth tsu ti [] = ([], ti, []) := by
  unfold matching_cascade
  rw [cascadeLevels_nil_dets]
  simp

theorem matching_cascade_nil_tracks (cost : ℕ → ℕ → ℚ) (maxCost : ℚ)
    (depth : ℕ) (tsu : ℕ → ℕ) (di : List ℕ) :
    matching_cascade cost maxCost depth tsu [] di = ([], [], di) := by
  unfold matching_cascade
  rw [cascadeLevels_nil_tracks]
  simp

theorem stageA_nil_dets (self : Tracker) :
    self.stageARun [] = ([], self.confirmedIdx, []) :=
  matching_cascade_nil_dets _ _ _ _ _

theorem stageB_nil_dets (self : Tracker) :
    self.stageBRun [] = ([], self.iouTrackCandidates [], []) := by
  unfold Tracker.stageBRun
  rw [stageA_nil_dets]
  exact min_cost_matching_nil_dets _ _ _

theorem subDetCandidates_nil_dets (self : Tracker) :
    self.subDetCandidates [] = [] := by
  unfold Tracker.subDetCandidates
  rw [stageB_nil_dets]
  rfl

theorem subDetRest_nil_dets (self : Tracker) :
    self.subDetRest [] = [] := by
  unfold Tracker.subDetRest
  rw [stageB_nil_dets]
  rfl

theorem stageC_nil_dets (self : Tracker) :
    self.stageCRun [] = ([], self.subTrackCandidates [], []) := by
  unfold Tracker.stageCRun
  rw [subDetCandidates_nil_dets]
  exact min_cost_matching_nil_dets _ _ _

theorem match_nil_dets (self : Tracker) :
    (self._match []).1 = [] ∧ (self._match []).2.2 = [] := by
  unfold Tracker._match
  rw [stageA_nil_dets, stageB_nil_dets, stageC_nil_dets, subDetRest_nil_dets]
  exact ⟨rfl, rfl⟩

theorem match_nil_dets_UT (self : Tracker) :
    ((self._match []).2.1).Perm (List.range self.tracks.length) := by
  have h := match_perm_tracks self []
  rw [(match_nil_dets self).1] at h
  simpa using h

theorem applyMatchesTrackList_nil (kf : KalmanFilter) (dets : List Detection) :
    ∀ ms : List (ℕ × ℕ), applyMatches kf dets [] ms = [] := by
  intro ms
  induction ms with
  | nil => rfl
  | cons p ms ih =>
    have hstep : applyMatches kf dets ([] : List Track) (p :: ms) =
        applyMatches kf dets
          (modifyIdx (fun t => t.update kf (dets.getD p.2 default)) [] p.1) ms := rfl
    rw [hstep]
    cases p.1 <;> exact ih

theorem applyMissesTrackList_nil : ∀ idxs : List ℕ, applyMisses [] idxs = [] := by
  intro idxs
  induction idxs with
  | nil => rfl
  | cons i idxs ih =>
    have hstep : applyMisses ([] : List Track) (i :: idxs) =
        applyMisses (modifyIdx Track.mark_missed [] i) idxs := rfl
    rw [hstep]
    cases i <;> exact ih

theorem update_nil_dets_tracks (self : Tracker) :
    (self.update []).tracks =
      (self.tracks.map Track.mark_missed).filter (fun t => !t.is_deleted) := by
  have hud : (self._match []).2.2 = [] := (match_nil_dets self).2
  have h2 : self.afterInitiate [] = { self with tracks := self.tracksAfterLifecycle [] } := by
    unfold Tracker.afterInitiate
    rw [hud]
    rfl
  have hperm := match_nil_dets_UT self
  have h3 : self.tracksAfterLifecycle [] =
      (self.tracks.map Track.mark_missed).filter (fun t => !t.is_deleted) := by
    unfold Tracker.tracksAfterLifecycle
    have hm : applyMatches self.kf [] self.tracks (self._match []).1 = self.tracks := by
      rw [(match_nil_dets self).1]
      rfl
    rw [hm]
    congr 1
    apply applyMisses_eq_map
    · exact hperm.symm.nodup (List.nodup_range _)
    · intro j
      constructor
      · intro hj
        exact List.mem_range.mp (hperm.mem_iff.mp hj)
      · intro hj
        exact hperm.mem_iff.mpr (List.mem_range.mpr hj)
  show (self.afterInitiate []).tracks = _
  rw [h2, h3]

theorem match_nil_tracks (self : Tracker) (dets : List Detection)
    (h : self.tracks = []) :
    (self._match dets).1 = [] ∧ (self._match dets).2.1 = [] ∧
    ((self._match dets).2.2).Perm (List.range dets.length) := by
  have hconf : self.confirmedIdx = [] := by simp [Tracker.confirmedIdx, h]
  have hunconf : self.unconfirmedIdx = [] := by simp [Tracker.unconfirmedIdx, h]
  have hA : self.stageARun dets = ([], [], List.range dets.length) := by
    unfold Tracker.stageARun
    rw [hconf]
    exact matching_cascade_nil_tracks _ _ _ _ _
  have hcands : self.iouTrackCandidates dets = [] := by
    unfold Tracker.iouTrackCandidates
    rw [hunconf, hA]
    rfl
  have hB : self.stageBRun dets = ([], [], List.range dets.length) := by
    unfold Tracker.stageBRun
    rw [hcands, hA]
    exact min_cost_matching_nil_tracks _ _ _
  have hUTA1 : self.unmatchedA1 dets = [] := by
    unfold Tracker.unmatchedA1
    rw [hA]
    rfl
  have hUAB : self.unmatchedAB dets = [] := by
    unfold Tracker.unmatchedAB
    rw [hUTA1, hB]
    rfl
  have hSTC : self.subTrackCandidates dets = [] := by
    unfold Tracker.subTrackCandidates
    rw [hUAB]
    rfl
  have hRESTT : self.subTrackRest dets = [] := by
    unfold Tracker.subTrackRest
    rw [hUAB]
    rfl
  have hC : self.stageCRun dets = ([], [], self.subDetCandidates dets) := by
    unfold Tracker.stageCRun
    rw [hSTC]
    exact min_cost_matching_nil_tracks _ _ _
  have hBud : (self.stageBRun dets).2.2 = List.range dets.length := by rw [hB]
  refine ⟨?_, ?_, ?_⟩
  · show (self.stageARun dets).1 ++ (self.stageBRun dets).1 ++
        (self.stageCRun dets).1 = []
    rw [hA, hB, hC]
    rfl
  · show self.subTrackRest dets ++ (self.stageCRun dets).2.1 = []
    rw [hRESTT, hC]
    rfl
  · show (self.subDetRest dets ++ (self.stageCRun dets).2.2).Perm
        (List.range dets.length)
    rw [hC]
    have hfp := List.filter_append_perm
      (fun k => ((dets.getD k default).sub_feature).isSome) ((self.stageBRun dets).2.2)
    have hcomm : (self.subDetRest dets ++ self.subDetCandidates dets).Perm
        (self.subDetCandidates dets ++ self.subDetRest dets) := List.perm_append_comm
    have := hcomm.trans hfp
    rw [hBud] at this
    exact this

theorem update_nil_tracks (self : Tracker) (dets : List Detection)
    (h : self.tracks = []) :
    (∀ t ∈ (self.update dets).tracks, t.state = TrackState.Tentative) ∧
    (self.update dets).metric = self.metric.partial_fit [] [] [] ∧
    (self.update dets).sub_metric = self.sub_metric.partial_fit [] [] [] := by
  have htl : self.tracksAfterLifecycle dets = [] := by
    unfold Tracker.tracksAfterLifecycle
    rw [h, applyMatchesTrackList_nil, applyMissesTrackList_nil]
    rfl
  obtain ⟨created, h1, h2, _, _, _⟩ :=
    initiateAll_split dets ((self._match dets).2.2)
      { self with tracks := self.tracksAfterLifecycle dets }
  have htr : (self.update dets).tracks = created := by
    show (self.afterInitiate dets).tracks = created
    unfold Tracker.afterInitiate
    rw [h1]
    show self.tracksAfterLifecycle dets ++ created = created
    rw [htl]
    rfl
  have hall : ∀ t ∈ (self.update dets).tracks, t.state = TrackState.Tentative := by
    intro t ht
    rw [htr] at ht
    exact h2 t ht
  refine ⟨hall, ?_, ?_⟩
  · have hfc : (self.update dets).tracks.filter Track.is_confirmed = [] := by
      rw [List.filter_eq_nil]
      intro t ht
      rw [Track.is_confirmed, hall t ht]
      simp
    rw [update_metric_eq, hfc]
    rfl
  · have hfc : (self.update dets).tracks.filter Track.is_confirmed = [] := by
      rw [List.filter_eq_nil]
      intro t ht
      rw [Track.is_confirmed, hall t ht]
      simp
    rw [update_sub_metric_eq, hfc]
    rfl


theorem initiateAll_wf (dets : List Detection) : ∀ (u : List ℕ) (self : Tracker),
    TrackerWF self →
    TrackerWF (self.initiateAll dets u) ∧
      self.next_id ≤ (self.initiateAll dets u).next_id := by
  intro u
  induction u with
  | nil => intro self hwf; exact ⟨hwf, le_refl _⟩
  | cons di u ih =>
    intro self hwf
    have hstep : self.initiateAll dets (di :: u) =
        (self.initiateStep dets di).initiateAll dets u := rfl
    rcases initiateStep_cases self dets di with he | he
    · rw [hstep, he]
      exact ih self hwf
    · rw [hstep, he]
      have hwf2 : TrackerWF (self._initiate_track (dets.getD di default)) := by
        constructor
        · show ((self.tracks ++
              [self.freshTrack (dets.getD di default)]).map Track.track_id).Nodup
          rw [List.map_append]
          refine hwf.1.append (by simp) ?_
          intro x hx1 hx2
          have hx : x = self.next_id := by
            simpa [Tracker.freshTrack] using hx2
          subst hx
          exact absurd (hwf.2 _ hx1) (lt_irrefl _)
        · intro x hx
          show x < self.next_id + 1
          rw [show (self._initiate_track (dets.getD di default)).tracks =
              self.tracks ++ [self.freshTrack (dets.getD di default)] from rfl,
            List.map_append] at hx
          rcases List.mem_append.mp hx with h | h
          · exact Nat.lt_succ_of_lt (hwf.2 x h)
          · have hx2 : x = self.next_id := by
              simpa [Tracker.freshTrack] using h
            subst hx2
            exact Nat.lt_succ_self _
      obtain ⟨h1, h2⟩ := ih _ hwf2
      refine ⟨h1, ?_⟩
      have h3 : (self._initiate_track (dets.getD di default)).next_id =
          self.next_id + 1 := rfl
      omega

theorem update_wf (self : Tracker) (dets : List Detection) (hwf : TrackerWF self) :
    TrackerWF (self.update dets) ∧ self.next_id ≤ (self.update dets).next_id := by
  have h1 : (applyMisses (applyMatches self.kf dets self.tracks (self._match dets).1)
      (self._match dets).2.1).map Track.track_id = self.tracks.map Track.track_id := by
    rw [applyMisses_map_track_id, applyMatches_map_track_id]
  have hsub : ((self.tracksAfterLifecycle dets).map Track.track_id).Sublist
      (self.tracks.map Track.track_id) := by
    unfold Tracker.tracksAfterLifecycle
    rw [← h1]
    exact (List.filter_sublist _).map _
  have hwf3 : TrackerWF { self with tracks := self.tracksAfterLifecycle dets } := by
    constructor
    · exact hwf.1.sublist hsub
    · intro x hx
      exact hwf.2 x (hsub.subset hx)
  have hres := initiateAll_wf dets ((self._match dets).2.2) _ hwf3
  exact hres

/-- C1: for every call to `Tracker._match`, the returned matches and the
unmatched-track / unmatched-detection lists partition the full track
index range and the full detection index range exactly — every track
index appears exactly once across the match pairs and the unmatched
tracks, every detection index exactly once across the match pairs and
the unmatched detections, with no duplicates and no omissions. -/
theorem claim_C1_match_partitions (tracker : Tracker) (dets : List Detection) :
    (((tracker._match dets).1.map Prod.fst) ++ (tracker._match dets).2.1).Perm
      (List.range tracker.tracks.length) ∧
    (((tracker._match dets).1.map Prod.snd) ++ (tracker._match dets).2.2).Perm
      (List.range dets.length) :=
  ⟨match_perm_tracks tracker dets, match_perm_dets tracker dets⟩

/-- C2: Stage A runs exclusively over confirmed tracks; its cost is the
nearest-neighbor primary-appearance distance with entries whose motion
gating distance exceeds the gating threshold replaced by the infeasible
cost; consequently (whenever the appearance feasibility threshold lies
below the infeasible cost, as with the source constants) no Stage A
match has a motion-gating distance exceeding the gating threshold. -/
theorem claim_C2_stageA_gated (tracker : Tracker) (dets : List Detection)
    (h : tracker.metric.matching_threshold < INFTY_COST) :
    (∀ p ∈ (tracker.stageARun dets).1,
      (tracker.tracks.getD p.1 default).is_confirmed = true ∧
      tracker.kf.gating_distance (tracker.tracks.getD p.1 default).motion
        ((dets.getD p.2 default).to_xyah) ≤ GATING_THRESHOLD) ∧
    (∀ ti di, GATING_THRESHOLD <
        tracker.kf.gating_distance (tracker.tracks.getD ti default).motion
          ((dets.getD di default).to_xyah) →
      tracker.gatedCost dets ti di = INFTY_COST) ∧
    (∀ ti di, tracker.kf.gating_distance (tracker.tracks.getD ti default).motion
        ((dets.getD di default).to_xyah) ≤ GATING_THRESHOLD →
      tracker.gatedCost dets ti di =
        tracker.metric.nnDistanceTo (tracker.tracks.getD ti default).track_id
          ((dets.getD di default).feature)) := by
  refine ⟨?_, ?_, ?_⟩
  · intro p hp
    obtain ⟨h1, _, h3⟩ := stageA_gating tracker dets h p hp
    exact ⟨(List.mem_filter.mp h1).2, h3⟩
  · intro ti di hgt
    unfold Tracker.gatedCost
    rw [if_pos hgt]
  · intro ti di hle
    unfold Tracker.gatedCost
    rw [if_neg (not_lt.mpr hle)]

/-- C3: in the new-track creation loop of `Tracker.update`, a detection
without a secondary feature is never rejected by the duplicate guard (a
track is always created for it), and a detection with a secondary
feature is rejected — no track created — whenever some currently-active
track has a last-associated detection that also carries a secondary
feature, with secondary-region IoU above the guard's IoU threshold
(`0.5`) and secondary-feature distance below its feature threshold
(`0.9`, compared in squared form). -/
theorem claim_C3_duplicate_guard :
    (∀ (self : Tracker) (dets : List Detection) (di : ℕ),
      (dets.getD di default).sub_feature = none →
      self.initiateStep dets di = self._initiate_track (dets.getD di default)) ∧
    (∀ (self : Tracker) (dets : List Detection) (di : ℕ) (g : Feature),
      (dets.getD di default).sub_feature = some g →
      (∃ tr ∈ self.tracks, ∃ td f, tr.detection = some td ∧ td.sub_feature = some f ∧
        1 / 2 < iou (dets.getD di default).sub_tlbr td.sub_tlbr ∧
        sqDist g f < (9 / 10) ^ 2) →
      self.initiateStep dets di = self) := by
  constructor
  · intro self dets di h
    have hg := has_same_subfeat_none (dets.getD di default) self.tracks
      (9 / 10) (1 / 2) h
    unfold Tracker.initiateStep
    rw [hg]
    simp
  · intro self dets di g h hex
    have hg := (has_same_subfeat_true_iff (dets.getD di default) self.tracks
      (9 / 10) (1 / 2) g h).mpr hex
    unfold Tracker.initiateStep
    rw [hg]
    simp

/-- C4: in `Tracker.update`, a matched `Confirmed` track stays `Confirmed`
with `time_since_update` reset; an unmatched `Confirmed` track is
deleted by the miss transition if and only if its `time_since_update`
at that call (after the miss increment) strictly exceeds `max_age`; and
after `update` returns, the track list contains no `Deleted` track (the
purge happens before new-track creation, and newly created tracks are
`Tentative`). -/
theorem claim_C4_deletion (tracker : Tracker) (dets : List Detection) :
    (∀ (t : Track) (d : Detection), t.state = TrackState.Confirmed →
      (t.update tracker.kf d).state = TrackState.Confirmed ∧
      (t.update tracker.kf d).time_since_update = 0) ∧
    (∀ t : Track, t.state = TrackState.Confirmed →
      ((t.mark_missed).state = TrackState.Deleted ↔
        t.max_age < t.time_since_update + 1)) ∧
    (∀ t ∈ (tracker.update dets).tracks, t.is_deleted = false) := by
  refine ⟨?_, ?_, ?_⟩
  · intro t d h
    exact Track.update_confirmed t tracker.kf d h
  · intro t h
    exact Track.mark_missed_confirmed_iff t h
  · intro t ht
    obtain ⟨created, h1, h2, _, _, _⟩ :=
      initiateAll_split dets ((tracker._match dets).2.2)
        { tracker with tracks := tracker.tracksAfterLifecycle dets }
    have htr : (tracker.update dets).tracks =
        tracker.tracksAfterLifecycle dets ++ created := by
      show (tracker.afterInitiate dets).tracks = _
      unfold Tracker.afterInitiate
      rw [h1]
    rw [htr] at ht
    rcases List.mem_append.mp ht with h | h
    · have := (List.mem_filter.mp h).2
      simpa using this
    · rw [Track.is_deleted, h2 t h]
      simp

/-- C5: the Stage B candidate set is exactly the non-confirmed tracks plus
the Stage-A-unmatched tracks with `time_since_update = 1`; every
Stage-A-unmatched track with `time_since_update ≠ 1` is excluded from
Stage B and carried forward (into the post-A/B unmatched pool that
Stage C draws from); and Stage B is one min-cost matching of the
candidates against the detections left unmatched by Stage A, under the
max-IoU-distance feasibility threshold. -/
theorem claim_C5_stageB (tracker : Tracker) (dets : List Detection) :
    (∀ k, k ∈ tracker.iouTrackCandidates dets ↔
      (k ∈ tracker.unconfirmedIdx ∨
        (k ∈ (tracker.stageARun dets).2.1 ∧ tracker.tsuAt k = 1))) ∧
    (∀ k ∈ (tracker.stageARun dets).2.1, tracker.tsuAt k ≠ 1 →
      k ∉ tracker.iouTrackCandidates dets ∧ k ∈ tracker.unmatchedAB dets) ∧
    (∀ p ∈ (tracker.stageBRun dets).1,
      p.1 ∈ tracker.iouTrackCandidates dets ∧
      p.2 ∈ (tracker.stageARun dets).2.2 ∧
      tracker.iouCost dets p.1 p.2 ≤ tracker.max_iou_distance) := by
  refine ⟨?_, ?_, ?_⟩
  · intro k
    unfold Tracker.iouTrackCandidates
    simp [List.mem_filter]
  · intro k hk htsu
    constructor
    · intro hmem
      unfold Tracker.iouTrackCandidates at hmem
      rcases List.mem_append.mp hmem with h | h
      · have hconf := (List.mem_filter.mp
          ((stageA_perm_tracks tracker dets).subset (List.mem_append_right _ hk))).2
        have hunconf := (List.mem_filter.mp h).2
        rw [hconf] at hunconf
        simp at hunconf
      · have := (List.mem_filter.mp h).2
        simp at this
        exact htsu this
    · unfold Tracker.unmatchedAB
      rw [List.mem_dedup]
      refine List.mem_append_left _ ?_
      unfold Tracker.unmatchedA1
      rw [List.mem_filter]
      refine ⟨hk, ?_⟩
      simpa using htsu
  · intro p hp
    exact min_cost_matching_mem _ _ _ _ p hp

/-- C6: Stage C draws its track candidates exactly from the post-A/B
unmatched tracks whose identity has samples in the secondary-feature
gallery (the rest are final unmatched tracks) and its detection
candidates exactly from the still-unmatched detections carrying a
secondary feature (the rest are final unmatched detections); its cost
is the nearest-neighbor secondary-feature distance with no motion
gating. -/
theorem claim_C6_stageC (tracker : Tracker) (dets : List Detection) :
    (∀ k, k ∈ tracker.subTrackCandidates dets ↔
      k ∈ tracker.unmatchedAB dets ∧
        tracker.sub_metric.has_samples (tracker.trackIdAt k) = true) ∧
    (∀ k ∈ tracker.unmatchedAB dets,
      tracker.sub_metric.has_samples (tracker.trackIdAt k) = false →
        k ∈ (tracker._match dets).2.1) ∧
    (∀ k, k ∈ tracker.subDetCandidates dets ↔
      k ∈ (tracker.stageBRun dets).2.2 ∧
        ((dets.getD k default).sub_feature).isSome = true) ∧
    (∀ k ∈ (tracker.stageBRun dets).2.2,
      (dets.getD k default).sub_feature = none →
        k ∈ (tracker._match dets).2.2) ∧
    (∀ p ∈ (tracker.stageCRun dets).1,
      p.1 ∈ tracker.subTrackCandidates dets ∧
      p.2 ∈ tracker.subDetCandidates dets ∧
      tracker.subCost dets p.1 p.2 ≤ tracker.sub_metric.matching_threshold) ∧
    (∀ ti di f, (dets.getD di default).sub_feature = some f →
      tracker.subCost dets ti di =
        tracker.sub_metric.nnDistanceTo
          (tracker.tracks.getD ti default).track_id f) := by
  refine ⟨?_, ?_, ?_, ?_, ?_, ?_⟩
  · intro k
    unfold Tracker.subTrackCandidates
    simp [List.mem_filter]
  · intro k hk hs
    show k ∈ tracker.subTrackRest dets ++ (tracker.stageCRun dets).2.1
    refine List.mem_append_left _ ?_
    unfold Tracker.subTrackRest
    rw [List.mem_filter]
    exact ⟨hk, by simp [hs]⟩
  · intro k
    unfold Tracker.subDetCandidates
    simp [List.mem_filter]
  · intro k hk hn
    show k ∈ tracker.subDetRest dets ++ (tracker.stageCRun dets).2.2
    refine List.mem_append_left _ ?_
    unfold Tracker.subDetRest
    rw [List.mem_filter]
    refine ⟨hk, ?_⟩
    rw [hn]
    rfl
  · intro p hp
    exact min_cost_matching_mem _ _ _ _ p hp
  · intro ti di f hf
    unfold Tracker.subCost
    rw [hf]

/-- C7: at the end of every `Tracker.update`, the primary metric is refit
with exactly the concatenated feature histories of the currently
confirmed tracks labelled by their identities, the secondary metric
with exactly their non-absent secondary features, and both with the
confirmed identities as the active set; an identity is in the active
set exactly when some currently-confirmed track carries it. -/
theorem claim_C7_gallery_refit (tracker : Tracker) (dets : List Detection) :
    (tracker.update dets).metric =
      tracker.metric.partial_fit
        (((tracker.update dets).tracks.filter Track.is_confirmed).flatMap
          Track.features)
        (((tracker.update dets).tracks.filter Track.is_confirmed).flatMap
          (fun t => t.features.map (fun _ => t.track_id)))
        (((tracker.update dets).tracks.filter Track.is_confirmed).map
          Track.track_id) ∧
    (tracker.update dets).sub_metric =
      tracker.sub_metric.partial_fit
        (((tracker.update dets).tracks.filter Track.is_confirmed).flatMap
          (fun t => t.sub_features.reduceOption))
        (((tracker.update dets).tracks.filter Track.is_confirmed).flatMap
          (fun t => (t.sub_features.reduceOption).map (fun _ => t.track_id)))
        (((tracker.update dets).tracks.filter Track.is_confirmed).map
          Track.track_id) ∧
    (∀ id, id ∈ ((tracker.update dets).tracks.filter Track.is_confirmed).map
        Track.track_id ↔
      ∃ t ∈ (tracker.update dets).tracks,
        t.is_confirmed = true ∧ t.track_id = id) := by
  refine ⟨update_metric_eq tracker dets, update_sub_metric_eq tracker dets, ?_⟩
  intro id
  simp only [List.mem_map, List.mem_filter]
  constructor
  · rintro ⟨t, ⟨ht, hc⟩, rfl⟩
    exact ⟨t, ht, hc, rfl⟩
  · rintro ⟨t, ht, hc, rfl⟩
    exact ⟨t, ⟨ht, hc⟩, rfl⟩

/-- C8: identities are strictly increasing over a tracker's lifetime — the
counter starts at 1 at construction; `_initiate_track` builds a fresh
`Tentative` track from the filter's `initiate` on the detection's
`xyah` representation carrying the current counter value and the
detection's features, then increments the counter; and `update`
preserves the invariant that active identities are pairwise distinct
and below the (monotone) counter, so no identity is ever reused. -/
theorem claim_C8_identities :
    (∀ (m sm : NNDistanceMetric) (mid : ℚ) (ma ni : ℕ) (kf : KalmanFilter),
      (Tracker.init m sm mid ma ni kf).next_id = 1 ∧
      (Tracker.init m sm mid ma ni kf).tracks = [] ∧
      TrackerWF (Tracker.init m sm mid ma ni kf)) ∧
    (∀ (self : Tracker) (d : Detection),
      (self._initiate_track d).tracks.map Track.track_id =
        self.tracks.map Track.track_id ++ [self.next_id] ∧
      (self._initiate_track d).next_id = self.next_id + 1 ∧
      (self._initiate_track d).tracks = self.tracks ++ [self.freshTrack d] ∧
      (self.freshTrack d).state = TrackState.Tentative ∧
      (self.freshTrack d).motion = self.kf.initiate d.to_xyah ∧
      (self.freshTrack d).track_id = self.next_id ∧
      (self.freshTrack d).hits = 0 ∧ (self.freshTrack d).age = 0 ∧
      (self.freshTrack d).time_since_update = 0 ∧
      (self.freshTrack d).features = [d.feature] ∧
      (self.freshTrack d).sub_features = [d.sub_feature]) ∧
    (∀ (self : Tracker) (dets : List Detection), TrackerWF self →
      TrackerWF (self.update dets) ∧
      self.next_id ≤ (self.update dets).next_id) := by
  refine ⟨?_, ?_, ?_⟩
  · intro m sm mid ma ni kf
    exact ⟨rfl, rfl, by constructor <;> simp [Tracker.init]⟩
  · intro self d
    refine ⟨?_, rfl, rfl, rfl, rfl, rfl, rfl, rfl, rfl, rfl, rfl⟩
    show ((self.tracks ++ [self.freshTrack d]).map Track.track_id) = _
    rw [List.map_append]
    rfl
  · intro self dets hwf
    exact update_wf self dets hwf

/-- C9: `Tracker.update` handles empty candidate sets without error: with
an empty detection list every stage returns no matches, all track
indices pass through as unmatched, every track is marked missed (the
deleted ones purged) and no track is created; with an empty track list
every stage returns no matches, all detection indices pass through as
unmatched, every surviving track is a freshly created `Tentative`
track, and both metrics are still refit (with an empty active set). -/
theorem claim_C9_empty_inputs :
    (∀ tracker : Tracker,
      (tracker._match []).1 = [] ∧
      (tracker._match []).2.2 = [] ∧
      ((tracker._match []).2.1).Perm (List.range tracker.tracks.length) ∧
      (tracker.update []).tracks =
        (tracker.tracks.map Track.mark_missed).filter (fun t => !t.is_deleted) ∧
      (tracker.update []).metric =
        tracker.metric.partial_fit
          (((tracker.update []).tracks.filter Track.is_confirmed).flatMap
            Track.features)
          (((tracker.update []).tracks.filter Track.is_confirmed).flatMap
            (fun t => t.features.map (fun _ => t.track_id)))
          (((tracker.update []).tracks.filter Track.is_confirmed).map
            Track.track_id)) ∧
    (∀ (tracker : Tracker) (dets : List Detection), tracker.tracks = [] →
      (tracker._match dets).1 = [] ∧
      (tracker._match dets).2.1 = [] ∧
      ((tracker._match dets).2.2).Perm (List.range dets.length) ∧
      (∀ t ∈ (tracker.update dets).tracks, t.state = TrackState.Tentative) ∧
      (tracker.update dets).metric = tracker.metric.partial_fit [] [] [] ∧
      (tracker.update dets).sub_metric = tracker.sub_metric.partial_fit [] [] []) := by
  constructor
  · intro tracker
    exact ⟨(match_nil_dets tracker).1, (match_nil_dets tracker).2,
      match_nil_dets_UT tracker, update_nil_dets_tracks tracker,
      update_metric_eq tracker []⟩
  · intro tracker dets h
    obtain ⟨h1, h2, h3⟩ := match_nil_tracks tracker dets h
    obtain ⟨h4, h5, h6⟩ := update_nil_tracks tracker dets h
    exact ⟨h1, h2, h3, h4, h5, h6⟩

theorem ts_tent_conf : (TrackState.Tentative = TrackState.Confirmed) = False := by
  simp

theorem ts_del_conf : (TrackState.Deleted = TrackState.Confirmed) = False := by
  simp

theorem ts_conf_conf : (TrackState.Confirmed = TrackState.Confirmed) = True := by
  simp

theorem stageA_T1_eval : T1.stageARun D1 = ([(0, 0)], [], []) := by
  norm_num [Tracker.stageARun, matching_cascade, cascadeLevels, min_cost_matching,
    greedyAssign, pickBest, argminBy, Tracker.gatedCost, Tracker.tsuAt,
    Tracker.confirmedIdx, Track.is_confirmed, NNDistanceMetric.nnDistanceTo,
    NNDistanceMetric.galleryOf, nnDist, sqDist, GATING_THRESHOLD, INFTY_COST,
    T1, TR1, M1, KF0, D1, List.range_succ, List.lookup, List.getD]

theorem stageB_T2_eval : (T2.stageBRun D1).1 = [(0, 0)] := by
  norm_num [Tracker.stageBRun, Tracker.stageARun, matching_cascade, cascadeLevels,
    min_cost_matching, greedyAssign, pickBest, argminBy, Tracker.gatedCost,
    Tracker.tsuAt, Tracker.iouTrackCandidates, Tracker.unconfirmedIdx,
    Tracker.confirmedIdx, Track.is_confirmed, Tracker.iouCost, Track.to_tlbr,
    iou, Box.area, NNDistanceMetric.nnDistanceTo, NNDistanceMetric.galleryOf,
    nnDist, sqDist, GATING_THRESHOLD, INFTY_COST, T2, TR2, M0, KF0, D1,
    List.range_succ, List.lookup, List.getD, ts_tent_conf, ts_del_conf,
    ts_conf_conf]

theorem stageC_T3_eval : (T3.stageCRun D3).1 = [(0, 0)] := by
  norm_num [Tracker.stageCRun, Tracker.subTrackCandidates, Tracker.subDetCandidates,
    Tracker.unmatchedAB, Tracker.unmatchedA1, Tracker.stageBRun, Tracker.stageARun,
    matching_cascade, cascadeLevels, min_cost_matching, greedyAssign, pickBest,
    argminBy, Tracker.gatedCost, Tracker.tsuAt, Tracker.trackIdAt,
    Tracker.iouTrackCandidates, Tracker.unconfirmedIdx, Tracker.confirmedIdx,
    Track.is_confirmed, Tracker.iouCost, Track.to_tlbr, iou, Box.area,
    Tracker.subCost, NNDistanceMetric.nnDistanceTo, NNDistanceMetric.galleryOf,
    NNDistanceMetric.has_samples, nnDist, sqDist, GATING_THRESHOLD, INFTY_COST,
    T3, TR3, M0, MS7, KF0, D3, dupD, List.range_succ, List.lookup, List.getD,
    ts_tent_conf, ts_del_conf, ts_conf_conf]

/-- C10: within one `Tracker.update` call, a track created for an earlier
unmatched detection is visible to the duplicate guard when later
unmatched detections are checked: feeding a fresh tracker two
mutually-similar secondary-featured detections (identical secondary
boxes, identical secondary features) creates exactly one track — the
second detection is suppressed by the track just created for the
first. -/
theorem claim_C10_same_frame_guard :
    ((T0.update DD2).tracks.map Track.track_id) = [1] ∧
    (T0.update DD2).next_id = 2 := by
  have hm : T0._match DD2 = ([], [], [0, 1]) := rfl
  have ha : T0.afterInitiate DD2 =
      (({ T0 with tracks := T0.tracksAfterLifecycle DD2 }).initiateStep DD2 0).initiateStep
        DD2 1 := by
    unfold Tracker.afterInitiate Tracker.initiateAll
    rw [hm]
    rfl
  have hg0 : has_same_subfeat (DD2.getD 0 default)
      ({ T0 with tracks := T0.tracksAfterLifecycle DD2 } : Tracker).tracks
      (9 / 10) (1 / 2) = false := rfl
  have hs0 : ({ T0 with tracks := T0.tracksAfterLifecycle DD2 } : Tracker).initiateStep
      DD2 0 =
      ({ T0 with tracks := T0.tracksAfterLifecycle DD2 } : Tracker)._initiate_track
        (DD2.getD 0 default) := by
    unfold Tracker.initiateStep
    rw [hg0]
    simp
  have hg1 : has_same_subfeat (DD2.getD 1 default)
      (({ T0 with tracks := T0.tracksAfterLifecycle DD2 } : Tracker)._initiate_track
        (DD2.getD 0 default)).tracks (9 / 10) (1 / 2) = true := by
    rw [has_same_subfeat_true_iff _ _ _ _ [0] rfl]
    refine ⟨({ T0 with tracks := T0.tracksAfterLifecycle DD2 } : Tracker).freshTrack
      (DD2.getD 0 default), ?_, dupD, [0], rfl, rfl, ?_, ?_⟩
    · exact List.mem_append_right _ (List.mem_singleton_self _)
    · norm_num [DD2, dupD, iou, Box.area, List.getD]
    · norm_num [sqDist]
  have hs1 : ((({ T0 with tracks := T0.tracksAfterLifecycle DD2 } : Tracker)._initiate_track
      (DD2.getD 0 default)).initiateStep DD2 1) =
      (({ T0 with tracks := T0.tracksAfterLifecycle DD2 } : Tracker)._initiate_track
        (DD2.getD 0 default)) := by
    unfold Tracker.initiateStep
    rw [hg1]
    simp
  have htracks : (T0.update DD2).tracks =
      ((({ T0 with tracks := T0.tracksAfterLifecycle DD2 } : Tracker)._initiate_track
        (DD2.getD 0 default)).tracks) := by
    show (T0.afterInitiate DD2).tracks = _
    rw [ha, hs0, hs1]
  have hnid : (T0.update DD2).next_id =
      ((({ T0 with tracks := T0.tracksAfterLifecycle DD2 } : Tracker)._initiate_track
        (DD2.getD 0 default)).next_id) := by
    show (T0.afterInitiate DD2).next_id = _
    rw [ha, hs0, hs1]
  constructor
  · rw [htracks]
    rfl
  · rw [hnid]
    rfl

theorem claim_C2_stageA_gated_witness :
    T1.kf.gating_distance (T1.tracks.getD 0 default).motion
      ((D1.getD 0 default).to_xyah) ≤ GATING_THRESHOLD := by
  have hthr : T1.metric.matching_threshold < INFTY_COST := by
    norm_num [T1, M1, INFTY_COST]
  have hmem : ((0, 0) : ℕ × ℕ) ∈ (T1.stageARun D1).1 := by
    rw [stageA_T1_eval]
    exact List.mem_singleton_self _
  exact ((claim_C2_stageA_gated T1 D1 hthr).1 (0, 0) hmem).2

theorem claim_C3_duplicate_guard_witness :
    T0.initiateStep D1 0 = T0._initiate_track (D1.getD 0 default) ∧
    T4.initiateStep D3 0 = T4 := by
  constructor
  · exact claim_C3_duplicate_guard.1 T0 D1 0 rfl
  · refine claim_C3_duplicate_guard.2 T4 D3 0 [0] rfl
      ⟨TRg, ?_, dupD, [0], rfl, rfl, ?_, ?_⟩
    · exact List.mem_singleton_self _
    · norm_num [D3, dupD, iou, Box.area, List.getD]
    · norm_num [sqDist]

theorem claim_C4_deletion_witness :
    (TR4.mark_missed).state = TrackState.Deleted :=
  ((claim_C4_deletion T0 []).2.1 TR4 rfl).mpr (by decide)

theorem claim_C5_stageB_witness :
    T2.iouCost D1 0 0 ≤ T2.max_iou_distance := by
  have hmem : ((0, 0) : ℕ × ℕ) ∈ (T2.stageBRun D1).1 := by
    rw [stageB_T2_eval]
    exact List.mem_singleton_self _
  exact ((claim_C5_stageB T2 D1).2.2 (0, 0) hmem).2.2

theorem claim_C6_stageC_witness :
    T3.subCost D3 0 0 ≤ T3.sub_metric.matching_threshold := by
  have hmem : ((0, 0) : ℕ × ℕ) ∈ (T3.stageCRun D3).1 := by
    rw [stageC_T3_eval]
    exact List.mem_singleton_self _
  exact ((claim_C6_stageC T3 D3).2.2.2.2.1 (0, 0) hmem).2.2

theorem claim_C8_identities_witness : TrackerWF (T0.update D1) :=
  (claim_C8_identities.2.2 T0 D1
    ⟨by simp [T0, Tracker.init], by simp [T0, Tracker.init]⟩).1

theorem claim_C9_empty_inputs_witness :
    (T0._match D1).1 = [] ∧ (T0._match D1).2.1 = [] :=
  ⟨(claim_C9_empty_inputs.2 T0 D1 rfl).1, (claim_C9_empty_inputs.2 T0 D1 rfl).2.1⟩
